import Mathlib

/-!
Verification of the account-synchronization core (aolpsync).

This file is a shallow embedding, in Lean 4, of the parts of the Python
code base that the specification's claims are about:

* `aolpsync/utils.py`    : `multivalued_check_equals`, `json_load`, `json_dump`;
* `aolpsync/account.py`  : `SyncAccount` (equality, `bss_equals`,
  `details_differ`, `copy_details_from`, `clear_empty_sets`,
  `to_json_record` / `from_json_record`, `is_predeleted`);
* `aolpsync/aliases.py`  : `AliasesMap.add_alias` / `get_main_account`;
* `aolpsync/rules.py`    : the compiled rule checkers, in particular
  `RuleParser.LogicalBinaryChecker`;
* `consolidate.py`       : the `Consolidator` three-way classifier
  (`run_account_check`, `run_check`, `result`, `process` and its seven
  check subroutines, `list_eppns_in`), together with the database
  helpers `save_account` / `remove_account` of `aolpsync/skel.py`;
* `synchronize.py`       : the `Processor` forward-sync pipeline
  (`check_undelete`, `check_rename`, `check_password_change`,
  `check_details`, `check_alias_changes`, `add_aliases`,
  `remove_aliases`, `pre_delete`).

Modelling conventions, used throughout and noted again locally:

* Python values stored in account attributes are modelled by `PyVal`:
  `None`, strings, integers, byte strings, and flat collections
  (sets / lists) of such scalars.  This covers every value shape the
  program reads from LDAP, the database or the BSS API and stores in a
  `SyncAccount` attribute (sets of mail addresses / group names,
  password hashes as bytes, deletion timestamps as ints).
* The attribute schema is the static default one: no `extra-attributes`
  configuration section, hence `STORAGE` is the twelve default
  attributes, `CREATE_ONLY` is empty and `DETAILS` is
  `surname, givenName, displayName, cos` (see `SyncAccount.init_storage_`
  and `SyncAccount.init_bss_attrs_`).  The schema partition is computed
  once at startup and immutable afterwards, so fixing it is faithful to
  one (default) run of the program.
* The account identifier `eppn` is modelled as a `String` (it is used
  as the byte-encoded database key, so runs in which it is not a string
  crash immediately in `save_account`).
* Python `dict`s are modelled as association lists; assignment replaces
  the first binding in place, `pop` removes it.
* The JSON text layer (`json.dumps` / `json.loads`) is embedded at the
  level of JSON values (`Json`); the string rendering and parsing of the
  standard library are external collaborators.
* Exceptions are modelled with `Except` or an explicit boolean `raised`
  flag; remote BSS calls are modelled by a script of booleans giving the
  success of each successive call, together with a trace of the calls
  performed.
-/

/-! ### Python values (`aolpsync` attribute values) -/

/-- Scalar Python values that occur as (elements of) account attributes:
`None`, `str`, `int`, `bytes`. -/
inductive PyScalar where
  | pNone
  | pStr (s : String)
  | pInt (n : Int)
  | pBytes (bs : List Nat)
deriving DecidableEq, Repr

/-- A Python value stored in a `SyncAccount` attribute: a scalar, or a
flat collection (set or list) of scalars.  Python sets are modelled as
lists of their elements; `pyEq` compares them as sets, like Python
`==` does. -/
inductive PyVal where
  | scal (s : PyScalar)
  | pSet (xs : List PyScalar)
  | pList (xs : List PyScalar)
deriving DecidableEq, Repr

/-- Python `None`. -/
def vNone : PyVal := PyVal.scal PyScalar.pNone

/-- A Python string value. -/
def vStr (s : String) : PyVal := PyVal.scal (PyScalar.pStr s)

/-- A Python integer value. -/
def vInt (n : Int) : PyVal := PyVal.scal (PyScalar.pInt n)

/-- A Python bytes value. -/
def vBytes (bs : List Nat) : PyVal := PyVal.scal (PyScalar.pBytes bs)

/-- Python `==` on the modelled values.  Scalars compare structurally;
two sets compare as sets (mutual inclusion); two lists compare
elementwise; a set never equals a list, and a scalar never equals a
collection. -/
def pyEq : PyVal → PyVal → Bool
  | PyVal.scal a, PyVal.scal b => a = b
  | PyVal.pSet xs, PyVal.pSet ys => xs.all (fun x => ys.contains x) && ys.all (fun y => xs.contains y)
  | PyVal.pList xs, PyVal.pList ys => xs = ys
  | _, _ => false

/-- Python truthiness of the modelled values (`bool(v)`): `None`, empty
collections, empty strings, zero and empty byte strings are falsy. -/
def pyTruthy : PyVal → Bool
  | PyVal.scal PyScalar.pNone => false
  | PyVal.scal (PyScalar.pStr s) => !(s = "")
  | PyVal.scal (PyScalar.pInt n) => !(n = 0)
  | PyVal.scal (PyScalar.pBytes bs) => !(bs = [])
  | PyVal.pSet xs => !(xs = [])
  | PyVal.pList xs => !(xs = [])

/-- Whether a value is a Python `set` or `list` (the collection test of
`multivalued_check_equals`). -/
def isCollection : PyVal → Bool
  | PyVal.pSet _ => true
  | PyVal.pList _ => true
  | _ => false

/-- Number of elements of a collection (0 for scalars; only applied to
collections). -/
def collLen : PyVal → Nat
  | PyVal.pSet xs => xs.length
  | PyVal.pList xs => xs.length
  | _ => 0

/-- Python `b in a` for a scalar `b` and a collection `a`. -/
def pyIn (b : PyVal) : PyVal → Bool
  | PyVal.pSet xs => match b with
    | PyVal.scal s => xs.contains s
    | _ => false
  | PyVal.pList xs => match b with
    | PyVal.scal s => xs.contains s
    | _ => false
  | _ => false

/-- Whether a value is Python `None` (`v is None`). -/
def pyIsNone : PyVal → Bool
  | PyVal.scal PyScalar.pNone => true
  | _ => false

/-- Embedding of `aolpsync/utils.py`, `multivalued_check_equals`:
equal values are equivalent; a collection and a scalar are compared by
the one-element / empty-vs-`None` rules; two collections or two
scalars that are not `==` are different. -/
def multivalued_check_equals (a b : PyVal) : Bool :=
  if pyEq a b then true
  else
    let ais := isCollection a
    let bis := isCollection b
    if (ais && bis) || !(ais || bis) then false
    else
      -- swap so that a is the collection and b the plain value
      let p := if bis then (b, a) else (a, b)
      let a' := p.1
      let b' := p.2
      if pyIsNone b' && !(pyTruthy a') then true
      else if !(pyIsNone b') && collLen a' = 1 && pyIn b' a' then true
      else false

/-! ### JSON values and the extended encoder / decoder (`utils.py`) -/

/-- JSON values, as produced by `json.dumps` / consumed by `json.loads`.
The textual layer is external; we embed the value layer. -/
inductive Json where
  | null
  | str (s : String)
  | num (n : Int)
  | arr (xs : List Json)
  | obj (kvs : List (String × Json))

/-- Lookup in a JSON object / Python dict (association list). -/
def alook {α : Type} : List (String × α) → String → Option α
  | [], _ => none
  | (k, v) :: t, k' => if k = k' then some v else alook t k'

/-- Encoding of one scalar by `json_dump`'s `JSONSetEncoder_`: native
scalars map to their JSON counterparts, and `bytes` values are encoded
by `default` as the tagged object with keys `__ext__` and `data`. -/
def dumpScalar : PyScalar → Json
  | PyScalar.pNone => Json.null
  | PyScalar.pStr s => Json.str s
  | PyScalar.pInt n => Json.num n
  | PyScalar.pBytes bs =>
      Json.obj [("__ext__", Json.str "bytes"), ("data", Json.arr (bs.map fun n => Json.num (Int.ofNat n)))]

/-- Encoding of a `PyVal` by `json_dump`: scalars as above, `set`
values as the tagged object with keys `__ext__` and `data`, lists as
JSON arrays. -/
def dumpVal : PyVal → Json
  | PyVal.scal s => dumpScalar s
  | PyVal.pSet xs => Json.obj [("__ext__", Json.str "set"), ("data", Json.arr (xs.map dumpScalar))]
  | PyVal.pList xs => Json.arr (xs.map dumpScalar)

/-- Sequenced decoding of a list (the elementwise decoding performed
by `json.loads` inside arrays), failing on the first element that
fails. -/
def mapDecode {a b : Type} (f : a -> Except Unit b) : List a -> Except Unit (List b)
  | [] => Except.ok []
  | x :: t =>
    match f x with
    | Except.error e => Except.error e
    | Except.ok y =>
      match mapDecode f t with
      | Except.error e => Except.error e
      | Except.ok ys => Except.ok (y :: ys)

/-- Decoding of one element of a `data` array of a tagged `bytes`
object: `bytes(dct['data'])` requires a list of integers. -/
def decodeNum : Json → Except Unit Nat
  | Json.num n => Except.ok n.toNat
  | _ => Except.error ()

/-- Decoding of a JSON value to a scalar, with `json_load`'s
`json_decoder_` object hook applied to objects: a tagged `bytes` object
decodes to bytes, an unknown tag raises `TypeError` (modelled as
`Except.error`); shapes that decode to Python values outside our value
model also map to `Except.error`. -/
def loadScalar : Json → Except Unit PyScalar
  | Json.null => Except.ok PyScalar.pNone
  | Json.str s => Except.ok (PyScalar.pStr s)
  | Json.num n => Except.ok (PyScalar.pInt n)
  | Json.arr _ => Except.error ()
  | Json.obj kvs =>
      match alook kvs "__ext__" with
      | some (Json.str t) =>
          if t = "bytes" then
            match alook kvs "data" with
            | some (Json.arr xs) =>
                match mapDecode decodeNum xs with
                | Except.error e => Except.error e
                | Except.ok ns => Except.ok (PyScalar.pBytes ns)
            | _ => Except.error ()
          else Except.error ()
      | _ => Except.error ()

/-- Decoding of a JSON value to a `PyVal`, mirroring `json_load`:
arrays decode to lists, tagged objects to bytes or sets (`set(data)`),
an object with an unknown `__ext__` tag raises `TypeError`. -/
def loadVal : Json → Except Unit PyVal
  | Json.null => Except.ok vNone
  | Json.str s => Except.ok (vStr s)
  | Json.num n => Except.ok (vInt n)
  | Json.arr xs =>
      match mapDecode loadScalar xs with
      | Except.error e => Except.error e
      | Except.ok ss => Except.ok (PyVal.pList ss)
  | Json.obj kvs =>
      match alook kvs "__ext__" with
      | some (Json.str t) =>
          if t = "bytes" then
            match alook kvs "data" with
            | some (Json.arr xs) =>
                match mapDecode decodeNum xs with
                | Except.error e => Except.error e
                | Except.ok ns => Except.ok (vBytes ns)
            | _ => Except.error ()
          else if t = "set" then
            match alook kvs "data" with
            | some (Json.arr xs) =>
                match mapDecode loadScalar xs with
                | Except.error e => Except.error e
                | Except.ok ss => Except.ok (PyVal.pSet ss)
            | _ => Except.error ()
          else Except.error ()
      | _ => Except.error ()

/-! ### The account record (`account.py`, default schema)

`SyncAccount.STORAGE` with the default configuration is the set
`uid, eppn, surname, givenName, displayName, mail, passwordHash,
groups, ldapMail, markedForDeletion, aliases, cos`; `CREATE_ONLY` is
empty; `DETAILS` is `surname, givenName, displayName, cos`. -/

/-- The synchronized account record with the twelve default storage
attributes.  `eppn` is a `String` (it is the database key). -/
structure Account where
  uid : PyVal
  eppn : String
  surname : PyVal
  givenName : PyVal
  displayName : PyVal
  mail : PyVal
  passwordHash : PyVal
  groups : PyVal
  ldapMail : PyVal
  markedForDeletion : PyVal
  aliases : PyVal
  cos : PyVal
deriving DecidableEq, Repr

/-- The storage-attribute names (`SyncAccount.STORAGE`, default
configuration), in a fixed iteration order. -/
def STORAGE : List String :=
  ["uid", "eppn", "surname", "givenName", "displayName", "mail",
   "passwordHash", "groups", "ldapMail", "markedForDeletion", "aliases", "cos"]

/-- The detail-attribute names (`SyncAccount.DETAILS`, default
configuration). -/
def DETAILS : List String := ["surname", "givenName", "displayName", "cos"]

/-- Dynamic attribute access (`getattr(account, name)`) over the
storage attributes; unknown names read as `None` (they are rejected at
rule-compilation time in the real program). -/
def getAttr (a : Account) : String → PyVal := fun n =>
  if n = "uid" then a.uid
  else if n = "eppn" then vStr a.eppn
  else if n = "surname" then a.surname
  else if n = "givenName" then a.givenName
  else if n = "displayName" then a.displayName
  else if n = "mail" then a.mail
  else if n = "passwordHash" then a.passwordHash
  else if n = "groups" then a.groups
  else if n = "ldapMail" then a.ldapMail
  else if n = "markedForDeletion" then a.markedForDeletion
  else if n = "aliases" then a.aliases
  else if n = "cos" then a.cos
  else vNone

/-- Embedding of `SyncAccount.compare_`: multivalued equivalence on
each of the listed attributes. -/
def compareAttrs (a b : Account) (attrs : List String) : Bool :=
  attrs.all fun n => multivalued_check_equals (getAttr a n) (getAttr b n)

/-- Embedding of `SyncAccount.__eq__` between two (non-`None`)
accounts: `compare_` over the storage attributes. -/
def accountEq (a b : Account) : Bool := compareAttrs a b STORAGE

/-- Python `a == b` where `b` may be `None` (`__eq__` returns `False`
when the other operand is not a `SyncAccount`). -/
def accountEqOpt (a : Account) : Option Account → Bool
  | some b => accountEq a b
  | none => false

/-- Embedding of `SyncAccount.details_differ`. -/
def details_differ (a b : Account) : Bool := !(compareAttrs a b DETAILS)

/-- Embedding of `SyncAccount.bss_equals`: mail, deletion marker,
details and aliases. -/
def bss_equals (a b : Account) : Bool :=
  multivalued_check_equals a.mail b.mail
    && pyEq a.markedForDeletion b.markedForDeletion
    && !(details_differ a b)
    && multivalued_check_equals a.aliases b.aliases

/-- Embedding of `SyncAccount.is_predeleted`
(`markedForDeletion is not None`). -/
def is_predeleted (a : Account) : Bool := !(a.markedForDeletion = vNone)

/-- Embedding of `SyncAccount.copy_details_from`: overwrite the detail
attributes with the other account's. -/
def copy_details_from (a o : Account) : Account :=
  { a with surname := o.surname, givenName := o.givenName,
           displayName := o.displayName, cos := o.cos }

/-- Replace an empty set by `None` (the per-attribute step of
`clear_empty_sets`; only `set` values are affected). -/
def clearVal : PyVal → PyVal
  | PyVal.pSet [] => vNone
  | v => v

/-- Embedding of `SyncAccount.clear_empty_sets`: every storage
attribute that is an empty set becomes `None` (`eppn` is a string and
is never a set). -/
def clear_empty_sets (a : Account) : Account :=
  { a with uid := clearVal a.uid, surname := clearVal a.surname,
           givenName := clearVal a.givenName, displayName := clearVal a.displayName,
           mail := clearVal a.mail, passwordHash := clearVal a.passwordHash,
           groups := clearVal a.groups, ldapMail := clearVal a.ldapMail,
           markedForDeletion := clearVal a.markedForDeletion,
           aliases := clearVal a.aliases, cos := clearVal a.cos }

/-- The byte string of the literal `b'\x7bSSHA\x7dinvalide'` used by
`consolidate.py` to force a password resynchronization. -/
def invalidHashBytes : List Nat :=
  [123, 83, 83, 72, 65, 125, 105, 110, 118, 97, 108, 105, 100, 101]

/-- The invalid password-hash value written by the corrective actions. -/
def invalidHash : PyVal := vBytes invalidHashBytes

/-! ### Association-list primitives (Python dict operations) -/

/-- Python dict assignment `m[k] = v`: replace the first binding of `k`
in place, or append a new binding. -/
def aset {α : Type} : List (String × α) → String → α → List (String × α)
  | [], k, v => [(k, v)]
  | (k', v') :: t, k, v => if k' = k then (k, v) :: t else (k', v') :: aset t k v

/-- Python dict `m.pop(k)` / LMDB `txn.pop`: remove the first binding
of `k` (no effect if absent). -/
def aremove {α : Type} : List (String × α) → String → List (String × α)
  | [], _ => []
  | (k', v') :: t, k => if k' = k then t else (k', v') :: aremove t k

/-- The key list of an association list. -/
def keysOf {α : Type} (m : List (String × α)) : List String := m.map (fun p => p.1)

theorem alook_mem_keys {α : Type} (m : List (String × α)) (k : String) :
    (alook m k).isSome = true ↔ k ∈ keysOf m := by
  induction m with
  | nil => simp [alook, keysOf]
  | cons p t ih =>
      obtain ⟨k', v'⟩ := p
      by_cases h : k' = k
      · simp [alook, keysOf, h]
      · simp only [alook, if_neg h, keysOf, List.map_cons, List.mem_cons]
        rw [keysOf] at ih
        rw [ih]
        constructor
        · exact Or.inr
        · rintro (h' | h')
          · exact absurd h'.symm h
          · exact h'

theorem alook_aset_self {α : Type} (m : List (String × α)) (k : String) (v : α) :
    alook (aset m k v) k = some v := by
  induction m with
  | nil => simp [aset, alook]
  | cons p t ih =>
      obtain ⟨k', v'⟩ := p
      by_cases h : k' = k <;> simp [aset, alook, h, ih]

theorem alook_aset_ne {α : Type} (m : List (String × α)) (k k' : String) (v : α)
    (h : k' ≠ k) : alook (aset m k v) k' = alook m k' := by
  induction m with
  | nil => simp [aset, alook, Ne.symm h]
  | cons p t ih =>
      obtain ⟨k₀, v₀⟩ := p
      by_cases h₀ : k₀ = k
      · subst h₀
        simp [aset, alook, Ne.symm h]
      · simp only [aset, if_neg h₀]
        by_cases h₁ : k₀ = k' <;> simp [alook, h₁, ih]

theorem alook_aremove_ne {α : Type} (m : List (String × α)) (k k' : String)
    (h : k' ≠ k) : alook (aremove m k) k' = alook m k' := by
  induction m with
  | nil => simp [aremove]
  | cons p t ih =>
      obtain ⟨k₀, v₀⟩ := p
      by_cases h₀ : k₀ = k
      · subst h₀
        simp [aremove, alook, Ne.symm h]
      · by_cases h₁ : k₀ = k' <;> simp [aremove, alook, h₀, h₁, ih, h]

theorem keysOf_aset_of_mem {α : Type} (m : List (String × α)) (k : String) (v : α)
    (h : (alook m k).isSome = true) : keysOf (aset m k v) = keysOf m := by
  induction m with
  | nil => simp [alook] at h
  | cons p t ih =>
      obtain ⟨k₀, v₀⟩ := p
      by_cases h₀ : k₀ = k
      · subst h₀
        simp [aset, keysOf]
      · simp only [alook, if_neg h₀] at h
        have := ih h
        simp only [keysOf] at this
        simp [aset, keysOf, h₀, this]

/-! ### Record serialization (`SyncAccount.to_json_record` /
`from_json_record`) -/

/-- Whether `to_json_record` drops an attribute value: `None` values
and empty collections are not written
(`av is None`, or `type(av) in (list, set, dict) and not av`). -/
def droppedField : PyVal → Bool
  | PyVal.scal PyScalar.pNone => true
  | PyVal.pSet [] => true
  | PyVal.pList [] => true
  | _ => false

/-- The (zero- or one-entry) record fragment written for one storage
attribute by `to_json_record`. -/
def fieldEntry (n : String) (v : PyVal) : List (String × Json) :=
  if droppedField v then [] else [(n, dumpVal v)]

/-- Embedding of `SyncAccount.to_json_record`: one JSON object entry
per non-dropped storage attribute, in the `STORAGE` iteration order.
`eppn` is a string and is never dropped. -/
def to_json_record (a : Account) : List (String × Json) :=
  fieldEntry "uid" a.uid
    ++ [("eppn", Json.str a.eppn)]
    ++ fieldEntry "surname" a.surname
    ++ fieldEntry "givenName" a.givenName
    ++ fieldEntry "displayName" a.displayName
    ++ fieldEntry "mail" a.mail
    ++ fieldEntry "passwordHash" a.passwordHash
    ++ fieldEntry "groups" a.groups
    ++ fieldEntry "ldapMail" a.ldapMail
    ++ fieldEntry "markedForDeletion" a.markedForDeletion
    ++ fieldEntry "aliases" a.aliases
    ++ fieldEntry "cos" a.cos

/-- Reading one storage attribute in `from_json_record`: a missing
attribute is `None`, a present one is the decoded JSON value. -/
def loadField (fs : List (String × Json)) (n : String) : Except Unit PyVal :=
  match alook fs n with
  | none => Except.ok vNone
  | some j => loadVal j

/-- Embedding of `SyncAccount.from_json_record` (composed with the
`json_load` decoding of the record's values): every storage attribute
is read from the record, missing attributes become `None`.  A record
whose `eppn` is not a string is rejected (the real program would crash
on it when the account is next saved). -/
def from_json_record (fs : List (String × Json)) : Except Unit Account := do
  let uid ← loadField fs "uid"
  let eppn ← (match alook fs "eppn" with
    | some (Json.str s) => Except.ok s
    | _ => Except.error ())
  let surname ← loadField fs "surname"
  let givenName ← loadField fs "givenName"
  let displayName ← loadField fs "displayName"
  let mail ← loadField fs "mail"
  let passwordHash ← loadField fs "passwordHash"
  let groups ← loadField fs "groups"
  let ldapMail ← loadField fs "ldapMail"
  let markedForDeletion ← loadField fs "markedForDeletion"
  let aliases ← loadField fs "aliases"
  let cos ← loadField fs "cos"
  Except.ok ⟨uid, eppn, surname, givenName, displayName, mail, passwordHash,
             groups, ldapMail, markedForDeletion, aliases, cos⟩

/-- Whether one attribute value survives the serialization round trip
unchanged: everything except an empty collection does (an empty
collection is dropped by `to_json_record` and read back as `None`). -/
def okField (v : PyVal) : Bool := !(isCollection v && !(pyTruthy v))

/-- Whether no storage attribute of the account is an empty collection
(such attributes are the only ones `to_json_record` does not restore
exactly: they decode back as `None`). -/
def noEmptyColls (a : Account) : Bool :=
  okField a.uid && okField a.surname && okField a.givenName
    && okField a.displayName && okField a.mail && okField a.passwordHash
    && okField a.groups && okField a.ldapMail && okField a.markedForDeletion
    && okField a.aliases && okField a.cos

theorem loadScalar_num_list (bs : List Nat) :
    mapDecode decodeNum (bs.map fun n => Json.num (Nat.cast n)) = Except.ok bs := by
  induction bs with
  | nil => rfl
  | cons b t ih => simp [List.map_cons, mapDecode, decodeNum, ih]

theorem loadScalar_dumpScalar (s : PyScalar) :
    loadScalar (dumpScalar s) = Except.ok s := by
  cases s with
  | pBytes bs => simp [dumpScalar, loadScalar, alook, loadScalar_num_list]
  | pNone => rfl
  | pStr s => rfl
  | pInt n => rfl

theorem loadScalar_list (xs : List PyScalar) :
    mapDecode loadScalar (xs.map dumpScalar) = Except.ok xs := by
  induction xs with
  | nil => rfl
  | cons x t ih => simp [List.map_cons, mapDecode, loadScalar_dumpScalar, ih]

/-- Decoding is a left inverse of encoding on all modelled values. -/
theorem loadVal_dumpVal (v : PyVal) : loadVal (dumpVal v) = Except.ok v := by
  cases v with
  | scal s =>
      cases s with
      | pBytes bs => simp [dumpVal, dumpScalar, loadVal, alook, loadScalar_num_list, vBytes]
      | pNone => rfl
      | pStr s => rfl
      | pInt n => rfl
  | pSet xs => simp [dumpVal, loadVal, alook, loadScalar_list]
  | pList xs => simp [dumpVal, loadVal, loadScalar_list]

theorem alook_append {α : Type} (xs ys : List (String × α)) (k : String) :
    alook (xs ++ ys) k = match alook xs k with
      | some v => some v
      | none => alook ys k := by
  induction xs with
  | nil => simp [alook]
  | cons p t ih =>
      obtain ⟨k₀, v₀⟩ := p
      by_cases h : k₀ = k <;> simp [alook, h, ih]

theorem alook_fieldEntry (n k : String) (v : PyVal) :
    alook (fieldEntry n v) k =
      if k = n then (if droppedField v then none else some (dumpVal v)) else none := by
  by_cases hd : droppedField v
  · simp [fieldEntry, hd, alook]
  · by_cases hk : k = n
    · subst hk
      simp [fieldEntry, hd, alook]
    · simp [fieldEntry, hd, alook, Ne.symm hk, hk]

theorem loadField_fieldValue (v : PyVal)
    (h : okField v = true) (n : String) :
    loadField (fieldEntry n v) n = Except.ok v := by
  by_cases hd : droppedField v = true
  · have hv : v = vNone := by
      cases v with
      | scal s => cases s <;> simp_all [droppedField, vNone]
      | pSet xs => cases xs <;> simp_all [okField, droppedField, isCollection, pyTruthy]
      | pList xs => cases xs <;> simp_all [okField, droppedField, isCollection, pyTruthy]
    subst hv
    simp [loadField, alook_fieldEntry, hd]
  · simp [loadField, alook_fieldEntry, hd, loadVal_dumpVal]

theorem loadField_of_alook (fs : List (String × Json)) (n : String) (v : PyVal)
    (ha : alook fs n = if droppedField v then none else some (dumpVal v))
    (h : okField v = true) :
    loadField fs n = Except.ok v := by
  by_cases hd : droppedField v = true
  · have hv : v = vNone := by
      cases v with
      | scal s => cases s <;> simp_all [droppedField, vNone]
      | pSet xs => cases xs <;> simp_all [okField, droppedField, isCollection, pyTruthy]
      | pList xs => cases xs <;> simp_all [okField, droppedField, isCollection, pyTruthy]
    subst hv
    simp [loadField, ha, hd]
  · simp [loadField, ha, hd, loadVal_dumpVal]

theorem alook_append_fieldEntry_ne (n k : String) (v : PyVal)
    (ys : List (String × Json)) (h : k ≠ n) :
    alook (fieldEntry n v ++ ys) k = alook ys k := by
  rw [alook_append, alook_fieldEntry]
  simp [h]

theorem alook_append_fieldEntry_self (n : String) (v : PyVal)
    (ys : List (String × Json)) (hys : alook ys n = none) :
    alook (fieldEntry n v ++ ys) n
      = if droppedField v then none else some (dumpVal v) := by
  rw [alook_append, alook_fieldEntry]
  by_cases h : droppedField v = true <;> simp [h, hys]

theorem alook_cons_ne {k0 k : String} (j : Json) (ys : List (String × Json))
    (h : k ≠ k0) : alook ((k0, j) :: ys) k = alook ys k := by
  simp [alook, Ne.symm h]

theorem alook_tjr_uid (a : Account) :
    alook (to_json_record a) "uid"
      = if droppedField a.uid then none else some (dumpVal a.uid) := by
  simp only [to_json_record, List.append_assoc]
  rw [alook_append_fieldEntry_self _ _ _ (by simp [alook_append, alook_fieldEntry, alook])]

theorem alook_tjr_surname (a : Account) :
    alook (to_json_record a) "surname"
      = if droppedField a.surname then none else some (dumpVal a.surname) := by
  simp only [to_json_record, List.append_assoc]
  rw [alook_append_fieldEntry_ne _ _ _ _ (by simp)]
  rw [List.singleton_append]
  rw [alook_cons_ne _ _ (by simp)]
  rw [alook_append_fieldEntry_self _ _ _ (by simp [alook_append, alook_fieldEntry, alook])]

theorem alook_tjr_givenName (a : Account) :
    alook (to_json_record a) "givenName"
      = if droppedField a.givenName then none else some (dumpVal a.givenName) := by
  simp only [to_json_record, List.append_assoc]
  rw [alook_append_fieldEntry_ne _ _ _ _ (by simp)]
  rw [List.singleton_append]
  rw [alook_cons_ne _ _ (by simp)]
  rw [alook_append_fieldEntry_ne _ _ _ _ (by simp)]
  rw [alook_append_fieldEntry_self _ _ _ (by simp [alook_append, alook_fieldEntry, alook])]

theorem alook_tjr_displayName (a : Account) :
    alook (to_json_record a) "displayName"
      = if droppedField a.displayName then none else some (dumpVal a.displayName) := by
  simp only [to_json_record, List.append_assoc]
  rw [alook_append_fieldEntry_ne _ _ _ _ (by simp)]
  rw [List.singleton_append]
  rw [alook_cons_ne _ _ (by simp)]
  rw [alook_append_fieldEntry_ne _ _ _ _ (by simp)]
  rw [alook_append_fieldEntry_ne _ _ _ _ (by simp)]
  rw [alook_append_fieldEntry_self _ _ _ (by simp [alook_append, alook_fieldEntry, alook])]

theorem alook_tjr_mail (a : Account) :
    alook (to_json_record a) "mail"
      = if droppedField a.mail then none else some (dumpVal a.mail) := by
  simp only [to_json_record, List.append_assoc]
  rw [alook_append_fieldEntry_ne _ _ _ _ (by simp)]
  rw [List.singleton_append]
  rw [alook_cons_ne _ _ (by simp)]
  rw [alook_append_fieldEntry_ne _ _ _ _ (by simp)]
  rw [alook_append_fieldEntry_ne _ _ _ _ (by simp)]
  rw [alook_append_fieldEntry_ne _ _ _ _ (by simp)]
  rw [alook_append_fieldEntry_self _ _ _ (by simp [alook_append, alook_fieldEntry, alook])]

theorem alook_tjr_passwordHash (a : Account) :
    alook (to_json_record a) "passwordHash"
      = if droppedField a.passwordHash then none else some (dumpVal a.passwordHash) := by
  simp only [to_json_record, List.append_assoc]
  rw [alook_append_fieldEntry_ne _ _ _ _ (by simp)]
  rw [List.singleton_append]
  rw [alook_cons_ne _ _ (by simp)]
  rw [alook_append_fieldEntry_ne _ _ _ _ (by simp)]
  rw [alook_append_fieldEntry_ne _ _ _ _ (by simp)]
  rw [alook_append_fieldEntry_ne _ _ _ _ (by simp)]
  rw [alook_append_fieldEntry_ne _ _ _ _ (by simp)]
  rw [alook_append_fieldEntry_self _ _ _ (by simp [alook_append, alook_fieldEntry, alook])]

theorem alook_tjr_groups (a : Account) :
    alook (to_json_record a) "groups"
      = if droppedField a.groups then none else some (dumpVal a.groups) := by
  simp only [to_json_record, List.append_assoc]
  rw [alook_append_fieldEntry_ne _ _ _ _ (by simp)]
  rw [List.singleton_append]
  rw [alook_cons_ne _ _ (by simp)]
  rw [alook_append_fieldEntry_ne _ _ _ _ (by simp)]
  rw [alook_append_fieldEntry_ne _ _ _ _ (by simp)]
  rw [alook_append_fieldEntry_ne _ _ _ _ (by simp)]
  rw [alook_append_fieldEntry_ne _ _ _ _ (by simp)]
  rw [alook_append_fieldEntry_ne _ _ _ _ (by simp)]
  rw [alook_append_fieldEntry_self _ _ _ (by simp [alook_append, alook_fieldEntry, alook])]

theorem alook_tjr_ldapMail (a : Account) :
    alook (to_json_record a) "ldapMail"
      = if droppedField a.ldapMail then none else some (dumpVal a.ldapMail) := by
  simp only [to_json_record, List.append_assoc]
  rw [alook_append_fieldEntry_ne _ _ _ _ (by simp)]
  rw [List.singleton_append]
  rw [alook_cons_ne _ _ (by simp)]
  rw [alook_append_fieldEntry_ne _ _ _ _ (by simp)]
  rw [alook_append_fieldEntry_ne _ _ _ _ (by simp)]
  rw [alook_append_fieldEntry_ne _ _ _ _ (by simp)]
  rw [alook_append_fieldEntry_ne _ _ _ _ (by simp)]
  rw [alook_append_fieldEntry_ne _ _ _ _ (by simp)]
  rw [alook_append_fieldEntry_ne _ _ _ _ (by simp)]
  rw [alook_append_fieldEntry_self _ _ _ (by simp [alook_append, alook_fieldEntry, alook])]

theorem alook_tjr_markedForDeletion (a : Account) :
    alook (to_json_record a) "markedForDeletion"
      = if droppedField a.markedForDeletion then none else some (dumpVal a.markedForDeletion) := by
  simp only [to_json_record, List.append_assoc]
  rw [alook_append_fieldEntry_ne _ _ _ _ (by simp)]
  rw [List.singleton_append]
  rw [alook_cons_ne _ _ (by simp)]
  rw [alook_append_fieldEntry_ne _ _ _ _ (by simp)]
  rw [alook_append_fieldEntry_ne _ _ _ _ (by simp)]
  rw [alook_append_fieldEntry_ne _ _ _ _ (by simp)]
  rw [alook_append_fieldEntry_ne _ _ _ _ (by simp)]
  rw [alook_append_fieldEntry_ne _ _ _ _ (by simp)]
  rw [alook_append_fieldEntry_ne _ _ _ _ (by simp)]
  rw [alook_append_fieldEntry_ne _ _ _ _ (by simp)]
  rw [alook_append_fieldEntry_self _ _ _ (by simp [alook_append, alook_fieldEntry, alook])]

theorem alook_tjr_aliases (a : Account) :
    alook (to_json_record a) "aliases"
      = if droppedField a.aliases then none else some (dumpVal a.aliases) := by
  simp only [to_json_record, List.append_assoc]
  rw [alook_append_fieldEntry_ne _ _ _ _ (by simp)]
  rw [List.singleton_append]
  rw [alook_cons_ne _ _ (by simp)]
  rw [alook_append_fieldEntry_ne _ _ _ _ (by simp)]
  rw [alook_append_fieldEntry_ne _ _ _ _ (by simp)]
  rw [alook_append_fieldEntry_ne _ _ _ _ (by simp)]
  rw [alook_append_fieldEntry_ne _ _ _ _ (by simp)]
  rw [alook_append_fieldEntry_ne _ _ _ _ (by simp)]
  rw [alook_append_fieldEntry_ne _ _ _ _ (by simp)]
  rw [alook_append_fieldEntry_ne _ _ _ _ (by simp)]
  rw [alook_append_fieldEntry_ne _ _ _ _ (by simp)]
  rw [alook_append_fieldEntry_self _ _ _ (by simp [alook_append, alook_fieldEntry, alook])]

theorem alook_tjr_cos (a : Account) :
    alook (to_json_record a) "cos"
      = if droppedField a.cos then none else some (dumpVal a.cos) := by
  simp only [to_json_record, List.append_assoc]
  rw [alook_append_fieldEntry_ne _ _ _ _ (by simp)]
  rw [List.singleton_append]
  rw [alook_cons_ne _ _ (by simp)]
  rw [alook_append_fieldEntry_ne _ _ _ _ (by simp)]
  rw [alook_append_fieldEntry_ne _ _ _ _ (by simp)]
  rw [alook_append_fieldEntry_ne _ _ _ _ (by simp)]
  rw [alook_append_fieldEntry_ne _ _ _ _ (by simp)]
  rw [alook_append_fieldEntry_ne _ _ _ _ (by simp)]
  rw [alook_append_fieldEntry_ne _ _ _ _ (by simp)]
  rw [alook_append_fieldEntry_ne _ _ _ _ (by simp)]
  rw [alook_append_fieldEntry_ne _ _ _ _ (by simp)]
  rw [alook_append_fieldEntry_ne _ _ _ _ (by simp)]
  rw [alook_fieldEntry]
  simp

theorem alook_tjr_eppn (a : Account) :
    alook (to_json_record a) "eppn" = some (Json.str a.eppn) := by
  simp only [to_json_record, List.append_assoc]
  rw [alook_append_fieldEntry_ne _ _ _ _ (by simp)]
  rw [List.singleton_append]
  simp [alook]

/-- Serialization round trip: an account with no empty-collection
storage attribute is restored exactly by
`from_json_record` after `to_json_record`. -/
theorem from_to_json_record (a : Account) (h : noEmptyColls a = true) :
    from_json_record (to_json_record a) = Except.ok a := by
  simp only [noEmptyColls, Bool.and_eq_true] at h
  obtain ⟨⟨⟨⟨⟨⟨⟨⟨⟨⟨h1, h2⟩, h3⟩, h4⟩, h5⟩, h6⟩, h7⟩, h8⟩, h9⟩, h10⟩, h11⟩ := h
  rw [from_json_record]
  rw [loadField_of_alook _ _ _ (alook_tjr_uid a) h1]
  rw [alook_tjr_eppn a]
  rw [loadField_of_alook _ _ _ (alook_tjr_surname a) h2]
  rw [loadField_of_alook _ _ _ (alook_tjr_givenName a) h3]
  rw [loadField_of_alook _ _ _ (alook_tjr_displayName a) h4]
  rw [loadField_of_alook _ _ _ (alook_tjr_mail a) h5]
  rw [loadField_of_alook _ _ _ (alook_tjr_passwordHash a) h6]
  rw [loadField_of_alook _ _ _ (alook_tjr_groups a) h7]
  rw [loadField_of_alook _ _ _ (alook_tjr_ldapMail a) h8]
  rw [loadField_of_alook _ _ _ (alook_tjr_markedForDeletion a) h9]
  rw [loadField_of_alook _ _ _ (alook_tjr_aliases a) h10]
  rw [loadField_of_alook _ _ _ (alook_tjr_cos a) h11]
  rfl

/-! ### The consolidation classifier (`consolidate.py`)

The `Consolidator` works on three snapshots: `ldap_accounts` (the
directory), `db_accounts` (the local cache, loaded from the store) and
`bss_accounts` (the remote service).  `save_account` / `remove_account`
(from `skel.py`) write the backing store only — the in-memory
`db_accounts` dictionary keeps its keys for the whole run, while the
account objects themselves are mutated in place (we model an in-place
mutation of the account bound to key `e` as an update of the
association list at `e`).  The per-identifier state codes are recorded
in `results` (a log of every `result` call, last write wins, mirroring
the Python dict) and `checked` is the processed set. -/

/-- One store operation performed by a corrective action (`txn.put` /
`txn.pop` keyed by the account's `eppn`). -/
inductive DbOp where
  | put (k : String)
  | pop (k : String)
deriving DecidableEq, Repr

/-- The key a store operation acts on. -/
def DbOp.key : DbOp → String
  | DbOp.put k => k
  | DbOp.pop k => k

/-- The mutable state of a `Consolidator.process` run. -/
structure ConsState where
  ldapAccounts : List (String × Account)
  dbAccounts : List (String × Account)
  bssAccounts : List (String × Account)
  store : List (String × List (String × Json))
  checked : List String
  results : List (String × Nat)
  dbops : List DbOp

/-- Embedding of `Consolidator.result`: record the state code for an
identifier and mark it processed.  `results` is a log; the Python dict
keeps the last entry per key. -/
def result (eppn : String) (code : Nat) (st : ConsState) : ConsState :=
  { st with results := st.results ++ [(eppn, code)],
            checked := eppn :: st.checked }

/-- Embedding of `ProcessSkeleton.save_account` (without the simulate
flag): `clear_empty_sets` mutates the account object, then the record
is serialized and written to the store under the account's `eppn`. -/
def save_store (a : Account) (st : ConsState) : ConsState :=
  let a' := clear_empty_sets a
  { st with store := aset st.store a'.eppn (to_json_record a'),
            dbops := st.dbops ++ [DbOp.put a'.eppn] }

/-- Embedding of `ProcessSkeleton.remove_account` (without the simulate
flag): pop the record keyed by the account's `eppn` from the store. -/
def remove_store (a : Account) (st : ConsState) : ConsState :=
  { st with store := aremove st.store a.eppn,
            dbops := st.dbops ++ [DbOp.pop a.eppn] }

/-- The type of a check subroutine as invoked by `run_account_check`:
it receives the identifier, the three optional records, and the state;
it returns the updated state and whether it raised an exception.  A
`True` flag models a Python exception escaping the subroutine (for the
embedded subroutines this happens exactly on the `AttributeError` of a
`None` operand). -/
def CheckFun : Type :=
  String → Option Account → Option Account → Option Account →
    ConsState → ConsState × Bool

/-- Embedding of `check_common_accounts_` (identifiers present in all
three snapshots; cases 01, 11, 13, 33, 34).  A missing `db` or `bss`
operand raises (`AttributeError` on `None`). -/
def check_common_accounts (eppn : String) (la db bss : Option Account)
    (st : ConsState) : ConsState × Bool :=
  match db, bss with
  | some dba, some bsa =>
      if bss_equals dba bsa then
        if accountEqOpt dba la then (result eppn 1 st, false)
        else if dba.markedForDeletion = vNone then (result eppn 11 st, false)
        else (result eppn 13 st, false)
      else if accountEqOpt dba la then (result eppn 33 st, false)
      else (result eppn 34 st, false)
  | _, _ => (st, true)

/-- The record mutation of `check_noldap_accounts_` case 24: copy the
detail attributes and the aliases from the remote record and install
an invalid password hash (`db.copy_details_from(bss)`,
`db.aliases = set(bss.aliases) if bss.aliases else None`,
`db.passwordHash = the invalid hash`). -/
def noldapFix (dba bsa : Account) : Account :=
  { copy_details_from dba bsa with
    aliases := if pyTruthy bsa.aliases then bsa.aliases else vNone,
    passwordHash := invalidHash }

/-- Embedding of `check_noldap_accounts_` (identifiers present in the
cache and remotely but not in the directory; cases 02, 12, 24, 31, 32,
35).  Case 24 applies `noldapFix` to the cached record in place and
saves it. -/
def check_noldap_accounts (eppn : String) (_la db bss : Option Account)
    (st : ConsState) : ConsState × Bool :=
  match db, bss with
  | some dba, some bsa =>
      if bss_equals dba bsa then
        if !(dba.markedForDeletion = vNone) then (result eppn 2 st, false)
        else (result eppn 12 st, false)
      else if is_predeleted dba = is_predeleted bsa then
        if is_predeleted dba then
          let dba' := noldapFix dba bsa
          let dba'' := clear_empty_sets dba'
          let st' := { st with dbAccounts := aset st.dbAccounts eppn dba'' }
          (result eppn 24 (save_store dba' st'), false)
        else (result eppn 35 st, false)
      else if is_predeleted dba then (result eppn 31 st, false)
      else (result eppn 32 st, false)
  | _, _ => (st, true)

/-- The record written to the store by case 22 of
`check_nodb_accounts_`: the directory record with an invalid password
hash (forcing a resynchronization). -/
def nodbStored (laa : Account) : Account := { laa with passwordHash := invalidHash }

/-- The net in-memory state of the directory record after case 22 of
`check_nodb_accounts_`: `save_account` ran `clear_empty_sets` on the
object while it carried the invalid hash, then the original password
hash was restored. -/
def nodbMem (laa : Account) : Account :=
  { clear_empty_sets (nodbStored laa) with passwordHash := laa.passwordHash }

/-- Embedding of `check_nodb_accounts_` (identifiers present in the
directory and remotely but not in the cache; cases 22, 30). -/
def check_nodb_accounts (eppn : String) (la _db bss : Option Account)
    (st : ConsState) : ConsState × Bool :=
  match la, bss with
  | some laa, some bsa =>
      if bss_equals laa bsa then
        let st' := { st with ldapAccounts := aset st.ldapAccounts eppn (nodbMem laa) }
        (result eppn 22 (save_store (nodbStored laa) st'), false)
      else (result eppn 30 st, false)
  | _, _ => (st, true)

/-- Embedding of `check_nobss_accounts_` (identifiers present in the
directory and the cache but not remotely; cases 20, 21).  The record
is removed from the store in both cases.  A missing directory operand
would raise only after `result` ran; the subroutine is invoked only on
identifiers of the directory snapshot, so we model the reachable
branch and raise without side effects otherwise. -/
def check_nobss_accounts (eppn : String) (la db _bss : Option Account)
    (st : ConsState) : ConsState × Bool :=
  match la with
  | some laa =>
      if accountEqOpt laa db then (remove_store laa (result eppn 20 st), false)
      else (remove_store laa (result eppn 21 st), false)
  | none => (st, true)

/-- Embedding of the anonymous subroutine for directory-only
identifiers (case 10): report and do nothing. -/
def check_ldaponly_accounts (eppn : String) (_la _db _bss : Option Account)
    (st : ConsState) : ConsState × Bool :=
  (result eppn 10 st, false)

/-- Embedding of `handle_dbonly_accounts_` (cache-only identifiers;
case 25): remove the record from the store. -/
def handle_dbonly_accounts (eppn : String) (_la db _bss : Option Account)
    (st : ConsState) : ConsState × Bool :=
  match db with
  | some dba => (result eppn 25 (remove_store dba st), false)
  | none => (st, true)

/-- Embedding of `check_bssonly_accounts_` (remote-only identifiers;
cases 03, 23): a predeleted remote record is saved into the store. -/
def check_bssonly_accounts (eppn : String) (_la _db bss : Option Account)
    (st : ConsState) : ConsState × Bool :=
  match bss with
  | some bsa =>
      if is_predeleted bsa then (result eppn 23 (save_store bsa st), false)
      else (result eppn 3 st, false)
  | none => (st, true)

/-- Embedding of `Consolidator.run_account_check`: look the identifier
up in the three snapshots, run the subroutine; an escaped exception is
mapped to state 98, and a subroutine that did not record a result to
state 99. -/
def runAccountCheck (f : CheckFun) (eppn : String) (st : ConsState) : ConsState :=
  let la := alook st.ldapAccounts eppn
  let db := alook st.dbAccounts eppn
  let bs := alook st.bssAccounts eppn
  let r := f eppn la db bs st
  if r.2 then result eppn 98 r.1
  else if eppn ∈ r.1.checked then r.1
  else result eppn 99 r.1

/-- Embedding of `Consolidator.list_eppns_in`: intersection of the
snapshots whose flag is true (in the keyword order `ldap, db, bss`),
minus the snapshots whose flag is false. -/
def listEppnsIn (st : ConsState) (lv dv bv : Bool) : List String :=
  let srcs : List (List (String × Account) × Bool) :=
    [(st.ldapAccounts, lv), (st.dbAccounts, dv), (st.bssAccounts, bv)]
  let pos := srcs.foldl
    (fun acc sv =>
      if sv.2 then
        match acc with
        | none => some (keysOf sv.1)
        | some xs => some (xs.filter (fun e => (alook sv.1 e).isSome))
      else acc)
    none
  srcs.foldl
    (fun xs sv => if sv.2 then xs else xs.filter (fun e => (alook sv.1 e).isNone))
    (pos.getD [])

/-- The loop body of `Consolidator.run_check`: already-checked
identifiers are skipped. -/
def runCheckStep (f : CheckFun) (st : ConsState) (eppn : String) : ConsState :=
  if eppn ∈ st.checked then st else runAccountCheck f eppn st

/-- Iteration of `run_check` over a list of identifiers. -/
def runCheckList (f : CheckFun) (eppns : List String) (st : ConsState) : ConsState :=
  eppns.foldl (runCheckStep f) st

/-- Embedding of `Consolidator.run_check`: compute the eligible
identifiers once, then check each of them. -/
def runCheck (f : CheckFun) (lv dv bv : Bool) (st : ConsState) : ConsState :=
  runCheckList f (listEppnsIn st lv dv bv) st

/-- Embedding of `Consolidator.process`: the seven `run_check` passes
in their fixed order. -/
def consProcess (st : ConsState) : ConsState :=
  let st1 := runCheck check_common_accounts true true true st
  let st2 := runCheck check_noldap_accounts false true true st1
  let st3 := runCheck check_nodb_accounts true false true st2
  let st4 := runCheck check_nobss_accounts true true false st3
  let st5 := runCheck check_ldaponly_accounts true false false st4
  let st6 := runCheck handle_dbonly_accounts false true false st5
  runCheck check_bssonly_accounts false false true st6

/-- The initial state of a `process` run from the three snapshots and
the backing store. -/
def initConsState (ldap db bss : List (String × Account))
    (store : List (String × List (String × Json))) : ConsState :=
  ⟨ldap, db, bss, store, [], [], []⟩

/-- Embedding of `ProcessSkeleton.load_db` restricted to account
records: decode every stored record and apply `clear_empty_sets`.
(Records that fail to decode would abort the real run with an
uncaught exception; they are skipped here and do not occur in the
stores we consider.) -/
def loadDb (store : List (String × List (String × Json))) : List (String × Account) :=
  store.filterMap fun p =>
    match from_json_record p.2 with
    | Except.ok a => some (p.1, clear_empty_sets a)
    | Except.error _ => none

/-- Number of classifications recorded for an identifier. -/
def logCount (st : ConsState) (e : String) : Nat :=
  (st.results.filter (fun p => p.1 = e)).length

/-- The final state code of an identifier (the Python dict keeps the
last `result` entry per identifier). -/
def finalCode (st : ConsState) (e : String) : Option Nat :=
  (st.results.reverse.find? (fun p => p.1 = e)).map (fun p => p.2)

/-! ### Step facts for the classifier subroutines -/

/-- Key/record consistency of a snapshot: every record is keyed by its
own `eppn` (true of the three snapshots as the program builds them). -/
def WFmap (m : List (String × Account)) : Prop := ∀ p ∈ m, (p.2).eppn = p.1

/-- Key/record consistency of the three snapshots of a state. -/
def WF3 (st : ConsState) : Prop :=
  WFmap st.ldapAccounts ∧ WFmap st.dbAccounts ∧ WFmap st.bssAccounts

theorem WFmap_alook {m : List (String × Account)} (hm : WFmap m) {k : String}
    {a : Account} (h : alook m k = some a) : a.eppn = k := by
  induction m with
  | nil => simp [alook] at h
  | cons p t ih =>
      obtain ⟨k₀, a₀⟩ := p
      by_cases h₀ : k₀ = k
      · subst h₀
        simp [alook] at h
        rw [← h]
        exact hm (k₀, a₀) (by simp)
      · simp [alook, h₀] at h
        exact ih (fun q hq => hm q (by simp [hq])) h

theorem WFmap_aset {m : List (String × Account)} (hm : WFmap m) {k : String}
    {a : Account} (h : a.eppn = k) : WFmap (aset m k a) := by
  induction m with
  | nil =>
      intro p hp
      simp [aset] at hp
      simp [hp, h]
  | cons q t ih =>
      obtain ⟨k₀, a₀⟩ := q
      by_cases h₀ : k₀ = k
      · subst h₀
        intro p hp
        simp [aset] at hp
        rcases hp with hp | hp
        · simp [hp, h]
        · exact hm p (by simp [hp])
      · intro p hp
        simp [aset, h₀] at hp
        rcases hp with hp | hp
        · exact hm p (by simp [hp])
        · exact ih (fun q hq => hm q (by simp [hq])) p hp

theorem WFmap_aremove {m : List (String × Account)} (hm : WFmap m) (k : String) :
    WFmap (aremove m k) := by
  induction m with
  | nil => intro p hp; simp [aremove] at hp
  | cons q t ih =>
      obtain ⟨k₀, a₀⟩ := q
      by_cases h₀ : k₀ = k
      · subst h₀
        intro p hp
        simp [aremove] at hp
        exact hm p (by simp [hp])
      · simp only [aremove, if_neg h₀]
        intro p hp
        rcases List.mem_cons.mp hp with hp | hp
        · exact hm p (by simp [hp])
        · exact ih (fun q hq => hm q (by simp [hq])) p hp

/-- The facts one `run_account_check` invocation establishes: exactly
one classification is recorded for the checked identifier, it is
marked processed, only its own snapshot entries are mutated, the
snapshot key sets are unchanged, and (on consistent snapshots) all
store operations are keyed by the checked identifier. -/
structure StepFacts (st st' : ConsState) (e : String) (c : Nat)
    (ops : List DbOp) : Prop where
  hres : st'.results = st.results ++ [(e, c)]
  hchk : st'.checked = e :: st.checked
  hops : st'.dbops = st.dbops ++ ops
  hlk : keysOf st'.ldapAccounts = keysOf st.ldapAccounts
  hdk : keysOf st'.dbAccounts = keysOf st.dbAccounts
  hbk : keysOf st'.bssAccounts = keysOf st.bssAccounts
  hlp : ∀ k, k ≠ e → alook st'.ldapAccounts k = alook st.ldapAccounts k
  hdp : ∀ k, k ≠ e → alook st'.dbAccounts k = alook st.dbAccounts k
  hbp : ∀ k, k ≠ e → alook st'.bssAccounts k = alook st.bssAccounts k
  hwf : WF3 st → WF3 st'
  hkey : WF3 st → ∀ op ∈ ops, op.key = e

/-- The state-code function of `check_common_accounts_` as a function
of the three looked-up records (98 for the raising operand shapes). -/
def commonCode (la db bs : Option Account) : Nat :=
  match db, bs with
  | some dba, some bsa =>
      if bss_equals dba bsa then
        if accountEqOpt dba la then 1
        else if dba.markedForDeletion = vNone then 11 else 13
      else if accountEqOpt dba la then 33 else 34
  | _, _ => 98

/-- The subroutines that never touch the store. -/
def noOps (_la _db _bs : Option Account) : List DbOp := []

theorem runAccountCheck_no_raise (f : CheckFun) (e : String) (st s' : ConsState)
    (hf : f e (alook st.ldapAccounts e) (alook st.dbAccounts e) (alook st.bssAccounts e) st
            = (s', false))
    (hm : e ∈ s'.checked) :
    runAccountCheck f e st = s' := by
  simp [runAccountCheck, hf, hm]

theorem runAccountCheck_raise (f : CheckFun) (e : String) (st s' : ConsState)
    (hf : f e (alook st.ldapAccounts e) (alook st.dbAccounts e) (alook st.bssAccounts e) st
            = (s', true)) :
    runAccountCheck f e st = result e 98 s' := by
  simp [runAccountCheck, hf]

theorem mem_result_checked (st : ConsState) (e : String) (c : Nat) :
    e ∈ (result e c st).checked := by
  simp [result]

theorem stepFacts_result (st : ConsState) (e : String) (c : Nat) :
    StepFacts st (result e c st) e c [] := by
  refine ⟨by simp [result], by simp [result], by simp [result], rfl, rfl, rfl,
          fun k _ => rfl, fun k _ => rfl, fun k _ => rfl, fun h => h, ?_⟩
  intro _ op hop
  simp at hop

theorem clear_empty_sets_eppn (a : Account) :
    (clear_empty_sets a).eppn = a.eppn := rfl

theorem stepFacts_save_plain (st : ConsState) (e : String) (c : Nat) (a : Account)
    (hepp : WF3 st → a.eppn = e) :
    StepFacts st (result e c (save_store a st)) e c [DbOp.put a.eppn] := by
  refine ⟨by simp [result, save_store, clear_empty_sets_eppn], by simp [result, save_store, clear_empty_sets_eppn],
          by simp [result, save_store, clear_empty_sets_eppn], rfl, rfl, rfl,
          fun k _ => rfl, fun k _ => rfl, fun k _ => rfl, fun h => h, ?_⟩
  intro hwf op hop
  simp at hop
  simp [hop, DbOp.key, hepp hwf]

theorem stepFacts_remove (st : ConsState) (e : String) (c : Nat) (a : Account)
    (hepp : WF3 st → a.eppn = e) :
    StepFacts st (remove_store a (result e c st)) e c [DbOp.pop a.eppn] := by
  refine ⟨by simp [result, remove_store], by simp [result, remove_store],
          by simp [result, remove_store], rfl, rfl, rfl,
          fun k _ => rfl, fun k _ => rfl, fun k _ => rfl, fun h => h, ?_⟩
  intro hwf op hop
  simp at hop
  simp [hop, DbOp.key, hepp hwf]

theorem stepFacts_save_db (st : ConsState) (e : String) (c : Nat) (a : Account)
    (hsome : (alook st.dbAccounts e).isSome = true)
    (hepp : WFmap st.dbAccounts → a.eppn = e) :
    StepFacts st
      (result e c (save_store a { st with dbAccounts := aset st.dbAccounts e (clear_empty_sets a) }))
      e c [DbOp.put a.eppn] := by
  refine ⟨by simp [result, save_store, clear_empty_sets_eppn], by simp [result, save_store, clear_empty_sets_eppn],
          by simp [result, save_store, clear_empty_sets_eppn], rfl, ?_, rfl,
          fun k _ => rfl, ?_, fun k _ => rfl, ?_, ?_⟩
  · simpa [result, save_store] using keysOf_aset_of_mem st.dbAccounts e (clear_empty_sets a) hsome
  · intro k hk
    simpa [result, save_store] using alook_aset_ne st.dbAccounts e k (clear_empty_sets a) hk
  · rintro ⟨hl, hd, hb⟩
    refine ⟨hl, ?_, hb⟩
    have : (clear_empty_sets a).eppn = e := hepp hd
    exact WFmap_aset hd this
  · rintro ⟨hl, hd, hb⟩ op hop
    simp at hop
    simp [hop, DbOp.key, hepp hd]

theorem stepFacts_save_ldap (st : ConsState) (e : String) (c : Nat) (amem asave : Account)
    (hsome : (alook st.ldapAccounts e).isSome = true)
    (hepp_mem : WFmap st.ldapAccounts → amem.eppn = e)
    (hepp_save : WFmap st.ldapAccounts → asave.eppn = e) :
    StepFacts st
      (result e c (save_store asave { st with ldapAccounts := aset st.ldapAccounts e amem }))
      e c [DbOp.put asave.eppn] := by
  refine ⟨by simp [result, save_store, clear_empty_sets_eppn], by simp [result, save_store, clear_empty_sets_eppn],
          by simp [result, save_store, clear_empty_sets_eppn], ?_, rfl, rfl,
          ?_, fun k _ => rfl, fun k _ => rfl, ?_, ?_⟩
  · simpa [result, save_store] using keysOf_aset_of_mem st.ldapAccounts e amem hsome
  · intro k hk
    simpa [result, save_store] using alook_aset_ne st.ldapAccounts e k amem hk
  · rintro ⟨hl, hd, hb⟩
    exact ⟨WFmap_aset hl (hepp_mem hl), hd, hb⟩
  · rintro ⟨hl, hd, hb⟩ op hop
    simp at hop
    simp [hop, DbOp.key, hepp_save hl]

/-- The state code assigned by `check_noldap_accounts_`. -/
def noldapCode (_la db bs : Option Account) : Nat :=
  match db, bs with
  | some dba, some bsa =>
      if bss_equals dba bsa then
        if !(dba.markedForDeletion = vNone) then 2 else 12
      else if is_predeleted dba = is_predeleted bsa then
        if is_predeleted dba then 24 else 35
      else if is_predeleted dba then 31 else 32
  | _, _ => 98

/-- Store-operation footprint of `check_noldap_accounts_` (case 24
saves the corrected cache record). -/
def noldapOps (_la db bs : Option Account) : List DbOp :=
  match db, bs with
  | some dba, some bsa =>
      if bss_equals dba bsa then []
      else if is_predeleted dba = is_predeleted bsa then
        if is_predeleted dba then [DbOp.put dba.eppn] else []
      else []
  | _, _ => []

/-- The state code assigned by `check_nodb_accounts_`. -/
def nodbCode (la _db bs : Option Account) : Nat :=
  match la, bs with
  | some laa, some bsa => if bss_equals laa bsa then 22 else 30
  | _, _ => 98

/-- Store-operation footprint of `check_nodb_accounts_` (case 22 saves
the directory record with an invalid password hash). -/
def nodbOps (la _db bs : Option Account) : List DbOp :=
  match la, bs with
  | some laa, some bsa => if bss_equals laa bsa then [DbOp.put laa.eppn] else []
  | _, _ => []

/-- The state code assigned by `check_nobss_accounts_`. -/
def nobssCode (la db _bs : Option Account) : Nat :=
  match la with
  | some laa => if accountEqOpt laa db then 20 else 21
  | none => 98

/-- Store-operation footprint of `check_nobss_accounts_` (both cases
remove the cache record). -/
def nobssOps (la _db _bs : Option Account) : List DbOp :=
  match la with
  | some laa => [DbOp.pop laa.eppn]
  | none => []

/-- The state code assigned by the directory-only subroutine. -/
def ldaponlyCode (_la _db _bs : Option Account) : Nat := 10

/-- The state code assigned by `handle_dbonly_accounts_`. -/
def dbonlyCode (_la db _bs : Option Account) : Nat :=
  match db with
  | some _ => 25
  | none => 98

/-- Store-operation footprint of `handle_dbonly_accounts_`. -/
def dbonlyOps (_la db _bs : Option Account) : List DbOp :=
  match db with
  | some dba => [DbOp.pop dba.eppn]
  | none => []

/-- The state code assigned by `check_bssonly_accounts_`. -/
def bssonlyCode (_la _db bs : Option Account) : Nat :=
  match bs with
  | some bsa => if is_predeleted bsa then 23 else 3
  | none => 98

/-- Store-operation footprint of `check_bssonly_accounts_` (case 23
saves the predeleted remote record). -/
def bssonlyOps (_la _db bs : Option Account) : List DbOp :=
  match bs with
  | some bsa => if is_predeleted bsa then [DbOp.put bsa.eppn] else []
  | none => []

theorem stepFacts_common (e : String) (st : ConsState) :
    StepFacts st (runAccountCheck check_common_accounts e st) e
      (commonCode (alook st.ldapAccounts e) (alook st.dbAccounts e) (alook st.bssAccounts e))
      (noOps (alook st.ldapAccounts e) (alook st.dbAccounts e) (alook st.bssAccounts e)) := by
  rcases hdb : alook st.dbAccounts e with _ | dba <;>
    rcases hbs : alook st.bssAccounts e with _ | bsa <;>
      simp only [commonCode, noOps, hdb, hbs]
  · rw [runAccountCheck_raise _ _ _ st (by simp [check_common_accounts, hdb, hbs])]
    exact stepFacts_result st e 98
  · rw [runAccountCheck_raise _ _ _ st (by simp [check_common_accounts, hdb, hbs])]
    exact stepFacts_result st e 98
  · rw [runAccountCheck_raise _ _ _ st (by simp [check_common_accounts, hdb, hbs])]
    exact stepFacts_result st e 98
  · by_cases h1 : bss_equals dba bsa = true
    · by_cases h2 : accountEqOpt dba (alook st.ldapAccounts e) = true
      · rw [runAccountCheck_no_raise _ _ _ (result e 1 st)
            (by simp [check_common_accounts, hdb, hbs, h1, h2]) (mem_result_checked st e 1)]
        simp only [h1, h2, if_true]
        exact stepFacts_result st e 1
      · by_cases h3 : dba.markedForDeletion = vNone
        · rw [runAccountCheck_no_raise _ _ _ (result e 11 st)
              (by simp [check_common_accounts, hdb, hbs, h1, h2, h3]) (mem_result_checked st e 11)]
          simp only [h1, h2, h3, if_true, if_false]
          exact stepFacts_result st e 11
        · rw [runAccountCheck_no_raise _ _ _ (result e 13 st)
              (by simp [check_common_accounts, hdb, hbs, h1, h2, h3]) (mem_result_checked st e 13)]
          simp only [h1, h2, h3, if_true, if_false]
          exact stepFacts_result st e 13
    · by_cases h2 : accountEqOpt dba (alook st.ldapAccounts e) = true
      · rw [runAccountCheck_no_raise _ _ _ (result e 33 st)
            (by simp [check_common_accounts, hdb, hbs, h1, h2]) (mem_result_checked st e 33)]
        simp only [h1, h2, if_true, if_false]
        exact stepFacts_result st e 33
      · rw [runAccountCheck_no_raise _ _ _ (result e 34 st)
            (by simp [check_common_accounts, hdb, hbs, h1, h2]) (mem_result_checked st e 34)]
        simp only [h1, h2, if_false]
        exact stepFacts_result st e 34

theorem stepFacts_noldap (e : String) (st : ConsState) :
    StepFacts st (runAccountCheck check_noldap_accounts e st) e
      (noldapCode (alook st.ldapAccounts e) (alook st.dbAccounts e) (alook st.bssAccounts e))
      (noldapOps (alook st.ldapAccounts e) (alook st.dbAccounts e) (alook st.bssAccounts e)) := by
  rcases hdb : alook st.dbAccounts e with _ | dba <;>
    rcases hbs : alook st.bssAccounts e with _ | bsa <;>
      simp only [noldapCode, noldapOps, hdb, hbs]
  · rw [runAccountCheck_raise _ _ _ st (by simp [check_noldap_accounts, hdb, hbs])]
    exact stepFacts_result st e 98
  · rw [runAccountCheck_raise _ _ _ st (by simp [check_noldap_accounts, hdb, hbs])]
    exact stepFacts_result st e 98
  · rw [runAccountCheck_raise _ _ _ st (by simp [check_noldap_accounts, hdb, hbs])]
    exact stepFacts_result st e 98
  · by_cases h1 : bss_equals dba bsa = true
    · by_cases h3 : dba.markedForDeletion = vNone
      · rw [runAccountCheck_no_raise _ _ _ (result e 12 st)
            (by simp [check_noldap_accounts, hdb, hbs, h1, h3]) (mem_result_checked st e 12)]
        simp [h1, h3]
        exact stepFacts_result st e 12
      · rw [runAccountCheck_no_raise _ _ _ (result e 2 st)
            (by simp [check_noldap_accounts, hdb, hbs, h1, h3]) (mem_result_checked st e 2)]
        simp [h1, h3]
        exact stepFacts_result st e 2
    · rcases Bool.eq_false_or_eq_true (is_predeleted dba) with h3 | h3 <;>
        rcases Bool.eq_false_or_eq_true (is_predeleted bsa) with h4 | h4
      · have hepp : WFmap st.dbAccounts → (noldapFix dba bsa).eppn = e :=
          fun hw => by have h := WFmap_alook hw hdb; exact h
        rw [runAccountCheck_no_raise _ _ _
            (result e 24 (save_store (noldapFix dba bsa)
              { st with dbAccounts := aset st.dbAccounts e (clear_empty_sets (noldapFix dba bsa)) }))
            (by simp [check_noldap_accounts, hdb, hbs, h1, h3, h4]) (mem_result_checked _ _ _)]
        simp [h1, h3, h4]
        exact stepFacts_save_db st e 24 (noldapFix dba bsa) (by simp [hdb]) hepp
      · rw [runAccountCheck_no_raise _ _ _ (result e 31 st)
            (by simp [check_noldap_accounts, hdb, hbs, h1, h3, h4]) (mem_result_checked st e 31)]
        simp [h1, h3, h4]
        exact stepFacts_result st e 31
      · rw [runAccountCheck_no_raise _ _ _ (result e 32 st)
            (by simp [check_noldap_accounts, hdb, hbs, h1, h3, h4]) (mem_result_checked st e 32)]
        simp [h1, h3, h4]
        exact stepFacts_result st e 32
      · rw [runAccountCheck_no_raise _ _ _ (result e 35 st)
            (by simp [check_noldap_accounts, hdb, hbs, h1, h3, h4]) (mem_result_checked st e 35)]
        simp [h1, h3, h4]
        exact stepFacts_result st e 35

theorem stepFacts_nodb (e : String) (st : ConsState) :
    StepFacts st (runAccountCheck check_nodb_accounts e st) e
      (nodbCode (alook st.ldapAccounts e) (alook st.dbAccounts e) (alook st.bssAccounts e))
      (nodbOps (alook st.ldapAccounts e) (alook st.dbAccounts e) (alook st.bssAccounts e)) := by
  rcases hla : alook st.ldapAccounts e with _ | laa <;>
    rcases hbs : alook st.bssAccounts e with _ | bsa <;>
      simp only [nodbCode, nodbOps, hla, hbs]
  · rw [runAccountCheck_raise _ _ _ st (by simp [check_nodb_accounts, hla, hbs])]
    exact stepFacts_result st e 98
  · rw [runAccountCheck_raise _ _ _ st (by simp [check_nodb_accounts, hla, hbs])]
    exact stepFacts_result st e 98
  · rw [runAccountCheck_raise _ _ _ st (by simp [check_nodb_accounts, hla, hbs])]
    exact stepFacts_result st e 98
  · by_cases h1 : bss_equals laa bsa = true
    · have hmem : WFmap st.ldapAccounts → (nodbMem laa).eppn = e :=
        fun hw => by have h := WFmap_alook hw hla; exact h
      have hsave : WFmap st.ldapAccounts → (nodbStored laa).eppn = e :=
        fun hw => by have h := WFmap_alook hw hla; exact h
      rw [runAccountCheck_no_raise _ _ _
          (result e 22 (save_store (nodbStored laa)
            { st with ldapAccounts := aset st.ldapAccounts e (nodbMem laa) }))
          (by simp [check_nodb_accounts, hla, hbs, h1]) (mem_result_checked _ _ _)]
      simp [h1]
      exact stepFacts_save_ldap st e 22 (nodbMem laa) (nodbStored laa) (by simp [hla]) hmem hsave
    · rw [runAccountCheck_no_raise _ _ _ (result e 30 st)
          (by simp [check_nodb_accounts, hla, hbs, h1]) (mem_result_checked st e 30)]
      simp [h1]
      exact stepFacts_result st e 30

theorem stepFacts_nobss (e : String) (st : ConsState)
    (hpres : (alook st.ldapAccounts e).isSome = true) :
    StepFacts st (runAccountCheck check_nobss_accounts e st) e
      (nobssCode (alook st.ldapAccounts e) (alook st.dbAccounts e) (alook st.bssAccounts e))
      (nobssOps (alook st.ldapAccounts e) (alook st.dbAccounts e) (alook st.bssAccounts e)) := by
  rcases hla : alook st.ldapAccounts e with _ | laa
  · rw [hla] at hpres
    simp at hpres
  · simp only [nobssCode, nobssOps, hla]
    have hepp : WF3 st → laa.eppn = e := fun hw => WFmap_alook hw.1 hla
    by_cases h1 : accountEqOpt laa (alook st.dbAccounts e) = true
    · rw [runAccountCheck_no_raise _ _ _ (remove_store laa (result e 20 st))
          (by simp [check_nobss_accounts, hla, h1]) (by simp [remove_store, result])]
      simp [h1]
      exact stepFacts_remove st e 20 laa hepp
    · rw [runAccountCheck_no_raise _ _ _ (remove_store laa (result e 21 st))
          (by simp [check_nobss_accounts, hla, h1]) (by simp [remove_store, result])]
      simp [h1]
      exact stepFacts_remove st e 21 laa hepp

theorem stepFacts_ldaponly (e : String) (st : ConsState) :
    StepFacts st (runAccountCheck check_ldaponly_accounts e st) e
      (ldaponlyCode (alook st.ldapAccounts e) (alook st.dbAccounts e) (alook st.bssAccounts e))
      (noOps (alook st.ldapAccounts e) (alook st.dbAccounts e) (alook st.bssAccounts e)) := by
  rw [runAccountCheck_no_raise _ _ _ (result e 10 st)
      (by simp [check_ldaponly_accounts]) (mem_result_checked st e 10)]
  exact stepFacts_result st e 10

theorem stepFacts_dbonly (e : String) (st : ConsState) :
    StepFacts st (runAccountCheck handle_dbonly_accounts e st) e
      (dbonlyCode (alook st.ldapAccounts e) (alook st.dbAccounts e) (alook st.bssAccounts e))
      (dbonlyOps (alook st.ldapAccounts e) (alook st.dbAccounts e) (alook st.bssAccounts e)) := by
  rcases hdb : alook st.dbAccounts e with _ | dba <;>
    simp only [dbonlyCode, dbonlyOps, hdb]
  · rw [runAccountCheck_raise _ _ _ st (by simp [handle_dbonly_accounts, hdb])]
    exact stepFacts_result st e 98
  · have hepp : WF3 st → dba.eppn = e := fun hw => WFmap_alook hw.2.1 hdb
    rw [runAccountCheck_no_raise _ _ _ (result e 25 (remove_store dba st))
        (by simp [handle_dbonly_accounts, hdb]) (mem_result_checked _ _ _)]
    exact stepFacts_remove st e 25 dba hepp

theorem stepFacts_bssonly (e : String) (st : ConsState) :
    StepFacts st (runAccountCheck check_bssonly_accounts e st) e
      (bssonlyCode (alook st.ldapAccounts e) (alook st.dbAccounts e) (alook st.bssAccounts e))
      (bssonlyOps (alook st.ldapAccounts e) (alook st.dbAccounts e) (alook st.bssAccounts e)) := by
  rcases hbs : alook st.bssAccounts e with _ | bsa <;>
    simp only [bssonlyCode, bssonlyOps, hbs]
  · rw [runAccountCheck_raise _ _ _ st (by simp [check_bssonly_accounts, hbs])]
    exact stepFacts_result st e 98
  · have hepp : WF3 st → bsa.eppn = e := fun hw => WFmap_alook hw.2.2 hbs
    by_cases h1 : is_predeleted bsa = true
    · rw [runAccountCheck_no_raise _ _ _ (result e 23 (save_store bsa st))
          (by simp [check_bssonly_accounts, hbs, h1]) (mem_result_checked _ _ _)]
      simp [h1]
      exact stepFacts_save_plain st e 23 bsa hepp
    · rw [runAccountCheck_no_raise _ _ _ (result e 3 st)
          (by simp [check_bssonly_accounts, hbs, h1]) (mem_result_checked st e 3)]
      simp [h1]
      exact stepFacts_result st e 3

/-- All facts about one `run_check` pass over a list of identifiers:
the results log and store-operation log grow by a delta; an identifier
is processed (exactly once, with the state code computed from its
initial lookups) iff it is listed and was not already checked; the
snapshot key sets never change; entries of unlisted or already-checked
identifiers are untouched; on consistent snapshots every store
operation of the pass belongs to the processed identifier it is keyed
by. -/
theorem runCheckList_facts
    (f : CheckFun)
    (codeF : Option Account → Option Account → Option Account → Nat)
    (opsF : Option Account → Option Account → Option Account → List DbOp)
    (usesLdap : Bool)
    (hstep : ∀ e st, (usesLdap = true → (alook st.ldapAccounts e).isSome = true) →
        StepFacts st (runAccountCheck f e st) e
          (codeF (alook st.ldapAccounts e) (alook st.dbAccounts e) (alook st.bssAccounts e))
          (opsF (alook st.ldapAccounts e) (alook st.dbAccounts e) (alook st.bssAccounts e)))
    (eppns : List String) (st0 : ConsState)
    (hpres : ∀ e ∈ eppns, e ∉ st0.checked → usesLdap = true →
        (alook st0.ldapAccounts e).isSome = true) :
    ∃ res dops,
      (runCheckList f eppns st0).results = st0.results ++ res ∧
      (runCheckList f eppns st0).dbops = st0.dbops ++ dops ∧
      (∀ x, x ∈ (runCheckList f eppns st0).checked ↔ x ∈ eppns ∨ x ∈ st0.checked) ∧
      keysOf (runCheckList f eppns st0).ldapAccounts = keysOf st0.ldapAccounts ∧
      keysOf (runCheckList f eppns st0).dbAccounts = keysOf st0.dbAccounts ∧
      keysOf (runCheckList f eppns st0).bssAccounts = keysOf st0.bssAccounts ∧
      (∀ x, (x ∉ eppns ∨ x ∈ st0.checked) →
        alook (runCheckList f eppns st0).ldapAccounts x = alook st0.ldapAccounts x ∧
        alook (runCheckList f eppns st0).dbAccounts x = alook st0.dbAccounts x ∧
        alook (runCheckList f eppns st0).bssAccounts x = alook st0.bssAccounts x) ∧
      (∀ x, res.filter (fun p => p.1 = x)
          = if x ∈ eppns ∧ x ∉ st0.checked
            then [(x, codeF (alook st0.ldapAccounts x) (alook st0.dbAccounts x)
                            (alook st0.bssAccounts x))]
            else []) ∧
      (∀ x, x ∈ eppns → x ∉ st0.checked →
        ∀ op ∈ opsF (alook st0.ldapAccounts x) (alook st0.dbAccounts x)
                    (alook st0.bssAccounts x), op ∈ dops) ∧
      (WF3 st0 → WF3 (runCheckList f eppns st0) ∧
        ∀ op ∈ dops, ∃ x, x ∈ eppns ∧ x ∉ st0.checked ∧ op.key = x ∧
          op ∈ opsF (alook st0.ldapAccounts x) (alook st0.dbAccounts x)
                    (alook st0.bssAccounts x)) := by
  induction eppns generalizing st0 with
  | nil =>
      refine ⟨[], [], by simp [runCheckList], by simp [runCheckList], ?_, rfl, rfl, rfl,
              fun x _ => ⟨rfl, rfl, rfl⟩, ?_, ?_, ?_⟩
      · intro x
        simp [runCheckList]
      · intro x
        simp
      · intro x hx
        simp at hx
      · intro hwf
        refine ⟨hwf, ?_⟩
        intro op hop
        simp at hop
  | cons e0 t ih =>
      by_cases hc : e0 ∈ st0.checked
      · have hrun : runCheckList f (e0 :: t) st0 = runCheckList f t st0 := by
          simp [runCheckList, runCheckStep, hc]
        obtain ⟨res, dops, h1, h2, h3, h4, h5, h6, h7, h8, h9, h10⟩ :=
          ih st0 (fun e he hne => hpres e (by simp [he]) hne)
        rw [hrun]
        refine ⟨res, dops, h1, h2, ?_, h4, h5, h6, ?_, ?_, ?_, ?_⟩
        · intro x
          rw [h3 x]
          constructor
          · rintro (hx | hx)
            · exact Or.inl (by simp [hx])
            · exact Or.inr hx
          · rintro (hx | hx)
            · rcases List.mem_cons.mp hx with hx | hx
              · subst hx
                exact Or.inr hc
              · exact Or.inl hx
            · exact Or.inr hx
        · intro x hx
          refine h7 x ?_
          rcases hx with hx | hx
          · exact Or.inl (fun hxt => hx (by simp [hxt]))
          · exact Or.inr hx
        · intro x
          rw [h8 x]
          by_cases hxe : x = e0
          · subst hxe
            simp [hc]
          · simp [List.mem_cons, hxe]
        · intro x hx hnx
          refine h9 x ?_ hnx
          rcases List.mem_cons.mp hx with hx | hx
          · subst hx
            exact absurd hc hnx
          · exact hx
        · intro hwf
          obtain ⟨hwf', hk⟩ := h10 hwf
          refine ⟨hwf', ?_⟩
          intro op hop
          obtain ⟨x, hx1, hx2, hx3, hx4⟩ := hk op hop
          exact ⟨x, by simp [hx1], hx2, hx3, hx4⟩
      · have hrun : runCheckList f (e0 :: t) st0
            = runCheckList f t (runAccountCheck f e0 st0) := by
          simp [runCheckList, runCheckStep, hc]
        have hst := hstep e0 st0 (hpres e0 (by simp) hc)
        set st1 := runAccountCheck f e0 st0 with hst1
        obtain ⟨res, dops, h1, h2, h3, h4, h5, h6, h7, h8, h9, h10⟩ :=
          ih st1 (by
            intro e he hne hu
            have hne0 : e ≠ e0 := by
              intro hx
              subst hx
              rw [hst.hchk] at hne
              exact hne (by simp)
            have hne' : e ∉ st0.checked := by
              intro hx
              rw [hst.hchk] at hne
              exact hne (by simp [hx])
            rw [hst.hlp e hne0]
            exact hpres e (by simp [he]) hne' hu)
        rw [hrun]
        refine ⟨(e0, codeF (alook st0.ldapAccounts e0) (alook st0.dbAccounts e0)
                  (alook st0.bssAccounts e0)) :: res,
                opsF (alook st0.ldapAccounts e0) (alook st0.dbAccounts e0)
                  (alook st0.bssAccounts e0) ++ dops, ?_, ?_, ?_, ?_, ?_, ?_, ?_, ?_, ?_, ?_⟩
        · rw [h1, hst.hres]
          simp
        · rw [h2, hst.hops]
          simp
        · intro x
          rw [h3 x, hst.hchk]
          simp [List.mem_cons]
          tauto
        · rw [h4, hst.hlk]
        · rw [h5, hst.hdk]
        · rw [h6, hst.hbk]
        · intro x hx
          have hxe : x ≠ e0 := by
            rcases hx with hx | hx
            · intro h
              exact hx (by simp [h])
            · intro h
              subst h
              exact hc hx
          have hx' : x ∉ t ∨ x ∈ st1.checked := by
            rcases hx with hx | hx
            · exact Or.inl (fun h => hx (by simp [h]))
            · rw [hst.hchk]
              exact Or.inr (by simp [hx])
          obtain ⟨p1, p2, p3⟩ := h7 x hx'
          exact ⟨p1.trans (hst.hlp x hxe), p2.trans (hst.hdp x hxe),
                 p3.trans (hst.hbp x hxe)⟩
        · intro x
          by_cases hxe : x = e0
          · subst hxe
            have hx1 : x ∈ st1.checked := by
              rw [hst.hchk]
              simp
            have hres : res.filter (fun p => p.1 = x) = [] := by
              rw [h8 x]
              simp [hx1]
            simp only [List.filter_cons]
            rw [hres]
            simp [hc]
          · have hcond : (x ∈ t ∧ x ∉ st1.checked) ↔ (x ∈ e0 :: t ∧ x ∉ st0.checked) := by
              rw [hst.hchk]
              simp [List.mem_cons, hxe]
            have hlook : codeF (alook st1.ldapAccounts x) (alook st1.dbAccounts x)
                (alook st1.bssAccounts x)
                = codeF (alook st0.ldapAccounts x) (alook st0.dbAccounts x)
                    (alook st0.bssAccounts x) := by
              rw [hst.hlp x hxe, hst.hdp x hxe, hst.hbp x hxe]
            simp only [List.filter_cons]
            have hhead : (decide ((e0, codeF (alook st0.ldapAccounts e0)
                (alook st0.dbAccounts e0) (alook st0.bssAccounts e0)).1 = x)) = false := by
              simp [Ne.symm hxe]
            rw [hhead]
            rw [h8 x]
            by_cases hcnd : x ∈ e0 :: t ∧ x ∉ st0.checked
            · rw [if_pos (hcond.mpr hcnd), if_pos hcnd, hlook]
              simp
            · rw [if_neg (fun h => hcnd (hcond.mp h)), if_neg hcnd]
              simp
        · intro x hx hnx op hop
          rcases List.mem_cons.mp hx with hxe | hxt
          · subst hxe
            exact List.mem_append_left _ hop
          · by_cases hxe : x = e0
            · subst hxe
              exact List.mem_append_left _ hop
            · have hnx1 : x ∉ st1.checked := by
                rw [hst.hchk]
                simp [hxe, hnx]
              have hop1 : op ∈ opsF (alook st1.ldapAccounts x) (alook st1.dbAccounts x)
                  (alook st1.bssAccounts x) := by
                rw [hst.hlp x hxe, hst.hdp x hxe, hst.hbp x hxe]
                exact hop
              exact List.mem_append_right _ (h9 x hxt hnx1 op hop1)
        · intro hwf0
          have hwf1 := hst.hwf hwf0
          obtain ⟨hwfF, hk⟩ := h10 hwf1
          refine ⟨hwfF, ?_⟩
          intro op hop
          rcases List.mem_append.mp hop with hop | hop
          · exact ⟨e0, by simp, hc, hst.hkey hwf0 op hop, hop⟩
          · obtain ⟨x, hx1, hx2, hx3, hx4⟩ := hk op hop
            have hxe : x ≠ e0 := by
              intro h
              subst h
              rw [hst.hchk] at hx2
              exact hx2 (by simp)
            have hnx0 : x ∉ st0.checked := by
              intro h
              rw [hst.hchk] at hx2
              exact hx2 (by simp [h])
            have hop0 : op ∈ opsF (alook st0.ldapAccounts x) (alook st0.dbAccounts x)
                (alook st0.bssAccounts x) := by
              rw [← hst.hlp x hxe, ← hst.hdp x hxe, ← hst.hbp x hxe]
              exact hx4
            exact ⟨x, by simp [hx1], hnx0, hx3, hop0⟩

theorem alook_eq_none_iff {α : Type} (m : List (String × α)) (k : String) :
    alook m k = none ↔ k ∉ keysOf m := by
  rw [← alook_mem_keys]
  cases h : alook m k <;> simp

theorem alook_isNone_iff {α : Type} (m : List (String × α)) (k : String) :
    (alook m k).isNone = true ↔ k ∉ keysOf m := by
  rw [Option.isNone_iff_eq_none]
  exact alook_eq_none_iff m k

theorem mem_listEppnsIn_ttt (st : ConsState) (e : String) :
    e ∈ listEppnsIn st true true true ↔
      e ∈ keysOf st.ldapAccounts ∧ e ∈ keysOf st.dbAccounts ∧ e ∈ keysOf st.bssAccounts := by
  simp [listEppnsIn, List.foldl, List.mem_filter, alook_isNone_iff, alook_eq_none_iff,
        alook_mem_keys]
  try tauto

theorem mem_listEppnsIn_ftt (st : ConsState) (e : String) :
    e ∈ listEppnsIn st false true true ↔
      e ∉ keysOf st.ldapAccounts ∧ e ∈ keysOf st.dbAccounts ∧ e ∈ keysOf st.bssAccounts := by
  simp [listEppnsIn, List.foldl, List.mem_filter, alook_isNone_iff, alook_eq_none_iff,
        alook_mem_keys]
  try tauto

theorem mem_listEppnsIn_tft (st : ConsState) (e : String) :
    e ∈ listEppnsIn st true false true ↔
      e ∈ keysOf st.ldapAccounts ∧ e ∉ keysOf st.dbAccounts ∧ e ∈ keysOf st.bssAccounts := by
  simp [listEppnsIn, List.foldl, List.mem_filter, alook_isNone_iff, alook_eq_none_iff,
        alook_mem_keys]
  try tauto

theorem mem_listEppnsIn_ttf (st : ConsState) (e : String) :
    e ∈ listEppnsIn st true true false ↔
      e ∈ keysOf st.ldapAccounts ∧ e ∈ keysOf st.dbAccounts ∧ e ∉ keysOf st.bssAccounts := by
  simp [listEppnsIn, List.foldl, List.mem_filter, alook_isNone_iff, alook_eq_none_iff,
        alook_mem_keys]
  try tauto

theorem mem_listEppnsIn_tff (st : ConsState) (e : String) :
    e ∈ listEppnsIn st true false false ↔
      e ∈ keysOf st.ldapAccounts ∧ e ∉ keysOf st.dbAccounts ∧ e ∉ keysOf st.bssAccounts := by
  simp [listEppnsIn, List.foldl, List.mem_filter, alook_isNone_iff, alook_eq_none_iff,
        alook_mem_keys]
  try tauto

theorem mem_listEppnsIn_ftf (st : ConsState) (e : String) :
    e ∈ listEppnsIn st false true false ↔
      e ∉ keysOf st.ldapAccounts ∧ e ∈ keysOf st.dbAccounts ∧ e ∉ keysOf st.bssAccounts := by
  simp [listEppnsIn, List.foldl, List.mem_filter, alook_isNone_iff, alook_eq_none_iff,
        alook_mem_keys]
  try tauto

theorem mem_listEppnsIn_fft (st : ConsState) (e : String) :
    e ∈ listEppnsIn st false false true ↔
      e ∉ keysOf st.ldapAccounts ∧ e ∉ keysOf st.dbAccounts ∧ e ∈ keysOf st.bssAccounts := by
  simp [listEppnsIn, List.foldl, List.mem_filter, alook_isNone_iff, alook_eq_none_iff,
        alook_mem_keys]
  try tauto

/-- Equation form of `runCheck`. -/
theorem runCheck_eq (f : CheckFun) (lv dv bv : Bool) (st : ConsState) :
    runCheck f lv dv bv st = runCheckList f (listEppnsIn st lv dv bv) st := rfl

/-- The state code `process` assigns to an identifier, as a function of
its presence pattern in the three snapshots (the seven presence
patterns route to the seven subroutines). -/
def patternCode (ldap dbm bssm : List (String × Account)) (x : String) : Nat :=
  let la := alook ldap x
  let db := alook dbm x
  let bs := alook bssm x
  if la.isSome then
    if db.isSome then
      if bs.isSome then commonCode la db bs
      else nobssCode la db bs
    else if bs.isSome then nodbCode la db bs
    else ldaponlyCode la db bs
  else if db.isSome then
    if bs.isSome then noldapCode la db bs
    else dbonlyCode la db bs
  else bssonlyCode la db bs

/-- The store operations `process` performs for an identifier, as a
function of its presence pattern in the three snapshots. -/
def patternOps (ldap dbm bssm : List (String × Account)) (x : String) : List DbOp :=
  let la := alook ldap x
  let db := alook dbm x
  let bs := alook bssm x
  if la.isSome then
    if db.isSome then
      if bs.isSome then noOps la db bs
      else nobssOps la db bs
    else if bs.isSome then nodbOps la db bs
    else noOps la db bs
  else if db.isSome then
    if bs.isSome then noldapOps la db bs
    else dbonlyOps la db bs
  else bssonlyOps la db bs

set_option maxHeartbeats 3200000 in
/-- The global behaviour of `Consolidator.process` on arbitrary
snapshots: (1) the results log holds exactly one entry per identifier
of the union of the snapshots' key sets, whose code is given by the
identifier's presence pattern, and no entry for any other identifier;
(2) every store operation of the identifier's pattern is performed;
(3) on consistent snapshots, every performed store operation belongs
to the identifier (in the union) that it is keyed by. -/
theorem consProcess_results (ldap dbm bssm : List (String × Account))
    (store : List (String × List (String × Json))) :
    (∀ x, ((consProcess (initConsState ldap dbm bssm store)).results).filter
            (fun p => p.1 = x)
        = if x ∈ keysOf ldap ∨ x ∈ keysOf dbm ∨ x ∈ keysOf bssm
          then [(x, patternCode ldap dbm bssm x)] else [])
    ∧ (∀ x, (x ∈ keysOf ldap ∨ x ∈ keysOf dbm ∨ x ∈ keysOf bssm) →
        ∀ op ∈ patternOps ldap dbm bssm x,
          op ∈ (consProcess (initConsState ldap dbm bssm store)).dbops)
    ∧ (WFmap ldap → WFmap dbm → WFmap bssm →
        ∀ op ∈ (consProcess (initConsState ldap dbm bssm store)).dbops,
          ∃ x, (x ∈ keysOf ldap ∨ x ∈ keysOf dbm ∨ x ∈ keysOf bssm) ∧ op.key = x ∧
            op ∈ patternOps ldap dbm bssm x) := by
  set st0 := initConsState ldap dbm bssm store with hst0
  set eppns1 := listEppnsIn st0 true true true with he1
  set st1 := runCheckList check_common_accounts eppns1 st0 with hs1
  obtain ⟨res1, dops1, q1_1, q1_2, q1_3, q1_4, q1_5, q1_6, q1_7, q1_8, q1_9, q1_10⟩ :=
    runCheckList_facts check_common_accounts commonCode noOps false
      (fun e st _ => stepFacts_common e st) eppns1 st0
      (fun _ _ _ h => absurd h (by decide))
  set eppns2 := listEppnsIn st1 false true true with he2
  set st2 := runCheckList check_noldap_accounts eppns2 st1 with hs2
  obtain ⟨res2, dops2, q2_1, q2_2, q2_3, q2_4, q2_5, q2_6, q2_7, q2_8, q2_9, q2_10⟩ :=
    runCheckList_facts check_noldap_accounts noldapCode noldapOps false
      (fun e st _ => stepFacts_noldap e st) eppns2 st1
      (fun _ _ _ h => absurd h (by decide))
  set eppns3 := listEppnsIn st2 true false true with he3
  set st3 := runCheckList check_nodb_accounts eppns3 st2 with hs3
  obtain ⟨res3, dops3, q3_1, q3_2, q3_3, q3_4, q3_5, q3_6, q3_7, q3_8, q3_9, q3_10⟩ :=
    runCheckList_facts check_nodb_accounts nodbCode nodbOps false
      (fun e st _ => stepFacts_nodb e st) eppns3 st2
      (fun _ _ _ h => absurd h (by decide))
  set eppns4 := listEppnsIn st3 true true false with he4
  set st4 := runCheckList check_nobss_accounts eppns4 st3 with hs4
  obtain ⟨res4, dops4, q4_1, q4_2, q4_3, q4_4, q4_5, q4_6, q4_7, q4_8, q4_9, q4_10⟩ :=
    runCheckList_facts check_nobss_accounts nobssCode nobssOps true
      (fun e st hp => stepFacts_nobss e st (hp rfl)) eppns4 st3
      (by
        intro e he _ _
        rw [alook_mem_keys]
        exact ((mem_listEppnsIn_ttf st3 e).mp he).1)
  set eppns5 := listEppnsIn st4 true false false with he5
  set st5 := runCheckList check_ldaponly_accounts eppns5 st4 with hs5
  obtain ⟨res5, dops5, q5_1, q5_2, q5_3, q5_4, q5_5, q5_6, q5_7, q5_8, q5_9, q5_10⟩ :=
    runCheckList_facts check_ldaponly_accounts ldaponlyCode noOps false
      (fun e st _ => stepFacts_ldaponly e st) eppns5 st4
      (fun _ _ _ h => absurd h (by decide))
  set eppns6 := listEppnsIn st5 false true false with he6
  set st6 := runCheckList handle_dbonly_accounts eppns6 st5 with hs6
  obtain ⟨res6, dops6, q6_1, q6_2, q6_3, q6_4, q6_5, q6_6, q6_7, q6_8, q6_9, q6_10⟩ :=
    runCheckList_facts handle_dbonly_accounts dbonlyCode dbonlyOps false
      (fun e st _ => stepFacts_dbonly e st) eppns6 st5
      (fun _ _ _ h => absurd h (by decide))
  set eppns7 := listEppnsIn st6 false false true with he7
  set st7 := runCheckList check_bssonly_accounts eppns7 st6 with hs7
  obtain ⟨res7, dops7, q7_1, q7_2, q7_3, q7_4, q7_5, q7_6, q7_7, q7_8, q7_9, q7_10⟩ :=
    runCheckList_facts check_bssonly_accounts bssonlyCode bssonlyOps false
      (fun e st _ => stepFacts_bssonly e st) eppns7 st6
      (fun _ _ _ h => absurd h (by decide))
  have hfinal : consProcess st0 = st7 := rfl
  have hk1l : keysOf st1.ldapAccounts = keysOf ldap := q1_4
  have hk1d : keysOf st1.dbAccounts = keysOf dbm := q1_5
  have hk1b : keysOf st1.bssAccounts = keysOf bssm := q1_6
  have hk2l : keysOf st2.ldapAccounts = keysOf ldap := q2_4.trans hk1l
  have hk2d : keysOf st2.dbAccounts = keysOf dbm := q2_5.trans hk1d
  have hk2b : keysOf st2.bssAccounts = keysOf bssm := q2_6.trans hk1b
  have hk3l : keysOf st3.ldapAccounts = keysOf ldap := q3_4.trans hk2l
  have hk3d : keysOf st3.dbAccounts = keysOf dbm := q3_5.trans hk2d
  have hk3b : keysOf st3.bssAccounts = keysOf bssm := q3_6.trans hk2b
  have hk4l : keysOf st4.ldapAccounts = keysOf ldap := q4_4.trans hk3l
  have hk4d : keysOf st4.dbAccounts = keysOf dbm := q4_5.trans hk3d
  have hk4b : keysOf st4.bssAccounts = keysOf bssm := q4_6.trans hk3b
  have hk5l : keysOf st5.ldapAccounts = keysOf ldap := q5_4.trans hk4l
  have hk5d : keysOf st5.dbAccounts = keysOf dbm := q5_5.trans hk4d
  have hk5b : keysOf st5.bssAccounts = keysOf bssm := q5_6.trans hk4b
  have hk6l : keysOf st6.ldapAccounts = keysOf ldap := q6_4.trans hk5l
  have hk6d : keysOf st6.dbAccounts = keysOf dbm := q6_5.trans hk5d
  have hk6b : keysOf st6.bssAccounts = keysOf bssm := q6_6.trans hk5b
  have hm1 : ∀ x, x ∈ eppns1 ↔
      (x ∈ keysOf ldap ∧ x ∈ keysOf dbm ∧ x ∈ keysOf bssm) :=
    fun x => mem_listEppnsIn_ttt st0 x
  have hm2 : ∀ x, x ∈ eppns2 ↔
      (x ∉ keysOf ldap ∧ x ∈ keysOf dbm ∧ x ∈ keysOf bssm) := fun x => by
    rw [he2, mem_listEppnsIn_ftt st1 x, hk1l, hk1d, hk1b]
  have hm3 : ∀ x, x ∈ eppns3 ↔
      (x ∈ keysOf ldap ∧ x ∉ keysOf dbm ∧ x ∈ keysOf bssm) := fun x => by
    rw [he3, mem_listEppnsIn_tft st2 x, hk2l, hk2d, hk2b]
  have hm4 : ∀ x, x ∈ eppns4 ↔
      (x ∈ keysOf ldap ∧ x ∈ keysOf dbm ∧ x ∉ keysOf bssm) := fun x => by
    rw [he4, mem_listEppnsIn_ttf st3 x, hk3l, hk3d, hk3b]
  have hm5 : ∀ x, x ∈ eppns5 ↔
      (x ∈ keysOf ldap ∧ x ∉ keysOf dbm ∧ x ∉ keysOf bssm) := fun x => by
    rw [he5, mem_listEppnsIn_tff st4 x, hk4l, hk4d, hk4b]
  have hm6 : ∀ x, x ∈ eppns6 ↔
      (x ∉ keysOf ldap ∧ x ∈ keysOf dbm ∧ x ∉ keysOf bssm) := fun x => by
    rw [he6, mem_listEppnsIn_ftf st5 x, hk5l, hk5d, hk5b]
  have hm7 : ∀ x, x ∈ eppns7 ↔
      (x ∉ keysOf ldap ∧ x ∉ keysOf dbm ∧ x ∈ keysOf bssm) := fun x => by
    rw [he7, mem_listEppnsIn_fft st6 x, hk6l, hk6d, hk6b]
  have hc0 : ∀ x : String, x ∉ st0.checked := fun x h => by
    rw [hst0] at h
    simp [initConsState] at h
  have hc1 : ∀ x, x ∈ st1.checked ↔ x ∈ eppns1 := fun x => by
    rw [q1_3 x]
    constructor
    · rintro (h | h)
      · exact h
      · exact absurd h (hc0 x)
    · exact Or.inl
  have hskipP1 : ∀ x, x ∉ eppns1 → res1.filter (fun p => p.1 = x) = [] := fun x h => by
    rw [q1_8 x, if_neg]
    rintro ⟨hm, _⟩
    exact h hm
  have hskipP2 : ∀ x, x ∉ eppns2 → res2.filter (fun p => p.1 = x) = [] := fun x h => by
    rw [q2_8 x, if_neg]
    rintro ⟨hm, _⟩
    exact h hm
  have hskipP3 : ∀ x, x ∉ eppns3 → res3.filter (fun p => p.1 = x) = [] := fun x h => by
    rw [q3_8 x, if_neg]
    rintro ⟨hm, _⟩
    exact h hm
  have hskipP4 : ∀ x, x ∉ eppns4 → res4.filter (fun p => p.1 = x) = [] := fun x h => by
    rw [q4_8 x, if_neg]
    rintro ⟨hm, _⟩
    exact h hm
  have hskipP5 : ∀ x, x ∉ eppns5 → res5.filter (fun p => p.1 = x) = [] := fun x h => by
    rw [q5_8 x, if_neg]
    rintro ⟨hm, _⟩
    exact h hm
  have hskipP6 : ∀ x, x ∉ eppns6 → res6.filter (fun p => p.1 = x) = [] := fun x h => by
    rw [q6_8 x, if_neg]
    rintro ⟨hm, _⟩
    exact h hm
  have hskipP7 : ∀ x, x ∉ eppns7 → res7.filter (fun p => p.1 = x) = [] := fun x h => by
    rw [q7_8 x, if_neg]
    rintro ⟨hm, _⟩
    exact h hm
  have hskipC2 : ∀ x, x ∈ st1.checked → res2.filter (fun p => p.1 = x) = [] := fun x h => by
    rw [q2_8 x, if_neg]
    rintro ⟨_, hn⟩
    exact hn h
  have hskipC3 : ∀ x, x ∈ st2.checked → res3.filter (fun p => p.1 = x) = [] := fun x h => by
    rw [q3_8 x, if_neg]
    rintro ⟨_, hn⟩
    exact hn h
  have hskipC4 : ∀ x, x ∈ st3.checked → res4.filter (fun p => p.1 = x) = [] := fun x h => by
    rw [q4_8 x, if_neg]
    rintro ⟨_, hn⟩
    exact hn h
  have hskipC5 : ∀ x, x ∈ st4.checked → res5.filter (fun p => p.1 = x) = [] := fun x h => by
    rw [q5_8 x, if_neg]
    rintro ⟨_, hn⟩
    exact hn h
  have hskipC6 : ∀ x, x ∈ st5.checked → res6.filter (fun p => p.1 = x) = [] := fun x h => by
    rw [q6_8 x, if_neg]
    rintro ⟨_, hn⟩
    exact hn h
  have hskipC7 : ∀ x, x ∈ st6.checked → res7.filter (fun p => p.1 = x) = [] := fun x h => by
    rw [q7_8 x, if_neg]
    rintro ⟨_, hn⟩
    exact hn h
  have hmo2 : ∀ x, x ∈ st1.checked → x ∈ st2.checked := fun x h => (q2_3 x).mpr (Or.inr h)
  have hmo3 : ∀ x, x ∈ st2.checked → x ∈ st3.checked := fun x h => (q3_3 x).mpr (Or.inr h)
  have hmo4 : ∀ x, x ∈ st3.checked → x ∈ st4.checked := fun x h => (q4_3 x).mpr (Or.inr h)
  have hmo5 : ∀ x, x ∈ st4.checked → x ∈ st5.checked := fun x h => (q5_3 x).mpr (Or.inr h)
  have hmo6 : ∀ x, x ∈ st5.checked → x ∈ st6.checked := fun x h => (q6_3 x).mpr (Or.inr h)
  have hpr1 : ∀ x, x ∉ eppns1 →
      alook st1.ldapAccounts x = alook st0.ldapAccounts x ∧
      alook st1.dbAccounts x = alook st0.dbAccounts x ∧
      alook st1.bssAccounts x = alook st0.bssAccounts x := fun x h => q1_7 x (Or.inl h)
  have hpr2 : ∀ x, x ∉ eppns2 →
      alook st2.ldapAccounts x = alook st1.ldapAccounts x ∧
      alook st2.dbAccounts x = alook st1.dbAccounts x ∧
      alook st2.bssAccounts x = alook st1.bssAccounts x := fun x h => q2_7 x (Or.inl h)
  have hpr3 : ∀ x, x ∉ eppns3 →
      alook st3.ldapAccounts x = alook st2.ldapAccounts x ∧
      alook st3.dbAccounts x = alook st2.dbAccounts x ∧
      alook st3.bssAccounts x = alook st2.bssAccounts x := fun x h => q3_7 x (Or.inl h)
  have hpr4 : ∀ x, x ∉ eppns4 →
      alook st4.ldapAccounts x = alook st3.ldapAccounts x ∧
      alook st4.dbAccounts x = alook st3.dbAccounts x ∧
      alook st4.bssAccounts x = alook st3.bssAccounts x := fun x h => q4_7 x (Or.inl h)
  have hpr5 : ∀ x, x ∉ eppns5 →
      alook st5.ldapAccounts x = alook st4.ldapAccounts x ∧
      alook st5.dbAccounts x = alook st4.dbAccounts x ∧
      alook st5.bssAccounts x = alook st4.bssAccounts x := fun x h => q5_7 x (Or.inl h)
  have hpr6 : ∀ x, x ∉ eppns6 →
      alook st6.ldapAccounts x = alook st5.ldapAccounts x ∧
      alook st6.dbAccounts x = alook st5.dbAccounts x ∧
      alook st6.bssAccounts x = alook st5.bssAccounts x := fun x h => q6_7 x (Or.inl h)
  have hres0 : st0.results = [] := rfl
  have hresF : st7.results
      = res1 ++ (res2 ++ (res3 ++ (res4 ++ (res5 ++ (res6 ++ res7))))) := by
    rw [q7_1, q6_1, q5_1, q4_1, q3_1, q2_1, q1_1, hres0]
    simp
  have hops0 : st0.dbops = [] := rfl
  have hopsF : st7.dbops
      = dops1 ++ (dops2 ++ (dops3 ++ (dops4 ++ (dops5 ++ (dops6 ++ dops7))))) := by
    rw [q7_2, q6_2, q5_2, q4_2, q3_2, q2_2, q1_2, hops0]
    simp
  have hl0l : ∀ x : String, alook st0.ldapAccounts x = alook ldap x := fun _ => rfl
  have hl0d : ∀ x : String, alook st0.dbAccounts x = alook dbm x := fun _ => rfl
  have hl0b : ∀ x : String, alook st0.bssAccounts x = alook bssm x := fun _ => rfl
  refine ⟨?_, ?_, ?_⟩
  · intro x
    rw [hfinal, hresF]
    simp only [List.filter_append]
    by_cases hl : x ∈ keysOf ldap <;> by_cases hd : x ∈ keysOf dbm <;>
      by_cases hb : x ∈ keysOf bssm
    · have hnc0 : x ∉ st0.checked := hc0 x
      have hin : x ∈ eppns1 := (hm1 x).mpr ⟨hl, hd, hb⟩
      have hpa : alook st0.ldapAccounts x = alook ldap x := hl0l x
      have hpb : alook st0.dbAccounts x = alook dbm x := hl0d x
      have hpc : alook st0.bssAccounts x = alook bssm x := hl0b x
      have hf1 : res1.filter (fun p => p.1 = x)
          = [(x, commonCode (alook ldap x) (alook dbm x) (alook bssm x))] := by
        rw [q1_8 x, if_pos ⟨hin, hnc0⟩, hpa, hpb, hpc]
      have hch1 : x ∈ st1.checked := (q1_3 x).mpr (Or.inl hin)
      have hch2 : x ∈ st2.checked := hmo2 x hch1
      have hch3 : x ∈ st3.checked := hmo3 x hch2
      have hch4 : x ∈ st4.checked := hmo4 x hch3
      have hch5 : x ∈ st5.checked := hmo5 x hch4
      have hch6 : x ∈ st6.checked := hmo6 x hch5
      have hf2 : res2.filter (fun p => p.1 = x) = [] := hskipC2 x hch1
      have hf3 : res3.filter (fun p => p.1 = x) = [] := hskipC3 x hch2
      have hf4 : res4.filter (fun p => p.1 = x) = [] := hskipC4 x hch3
      have hf5 : res5.filter (fun p => p.1 = x) = [] := hskipC5 x hch4
      have hf6 : res6.filter (fun p => p.1 = x) = [] := hskipC6 x hch5
      have hf7 : res7.filter (fun p => p.1 = x) = [] := hskipC7 x hch6
      rw [if_pos (Or.inl hl), hf1, hf2, hf3, hf4, hf5, hf6, hf7]
      have hs0 : (alook ldap x).isSome = true := (alook_mem_keys ldap x).mpr hl
      have hs1 : (alook dbm x).isSome = true := (alook_mem_keys dbm x).mpr hd
      have hs2 : (alook bssm x).isSome = true := (alook_mem_keys bssm x).mpr hb
      simp [patternCode, hs0, hs1, hs2]
    · have hn1 : x ∉ eppns1 := fun h => hb ((hm1 x).mp h).2.2
      have hn2 : x ∉ eppns2 := fun h => ((hm2 x).mp h).1 hl
      have hn3 : x ∉ eppns3 := fun h => ((hm3 x).mp h).2.1 hd
      have hnc1 : x ∉ st1.checked := fun h => hn1 ((hc1 x).mp h)
      have hnc2 : x ∉ st2.checked := fun h => by
        rcases (q2_3 x).mp h with h' | h'
        · exact hn2 h'
        · exact hnc1 h'
      have hnc3 : x ∉ st3.checked := fun h => by
        rcases (q3_3 x).mp h with h' | h'
        · exact hn3 h'
        · exact hnc2 h'
      have hin : x ∈ eppns4 := (hm4 x).mpr ⟨hl, hd, hb⟩
      have hpa : alook st3.ldapAccounts x = alook ldap x := by
        rw [(hpr3 x hn3).1, (hpr2 x hn2).1, (hpr1 x hn1).1, hl0l x]
      have hpb : alook st3.dbAccounts x = alook dbm x := by
        rw [(hpr3 x hn3).2.1, (hpr2 x hn2).2.1, (hpr1 x hn1).2.1, hl0d x]
      have hpc : alook st3.bssAccounts x = alook bssm x := by
        rw [(hpr3 x hn3).2.2, (hpr2 x hn2).2.2, (hpr1 x hn1).2.2, hl0b x]
      have hf4 : res4.filter (fun p => p.1 = x)
          = [(x, nobssCode (alook ldap x) (alook dbm x) (alook bssm x))] := by
        rw [q4_8 x, if_pos ⟨hin, hnc3⟩, hpa, hpb, hpc]
      have hf1 : res1.filter (fun p => p.1 = x) = [] := hskipP1 x hn1
      have hf2 : res2.filter (fun p => p.1 = x) = [] := hskipP2 x hn2
      have hf3 : res3.filter (fun p => p.1 = x) = [] := hskipP3 x hn3
      have hch4 : x ∈ st4.checked := (q4_3 x).mpr (Or.inl hin)
      have hch5 : x ∈ st5.checked := hmo5 x hch4
      have hch6 : x ∈ st6.checked := hmo6 x hch5
      have hf5 : res5.filter (fun p => p.1 = x) = [] := hskipC5 x hch4
      have hf6 : res6.filter (fun p => p.1 = x) = [] := hskipC6 x hch5
      have hf7 : res7.filter (fun p => p.1 = x) = [] := hskipC7 x hch6
      rw [if_pos (Or.inl hl), hf1, hf2, hf3, hf4, hf5, hf6, hf7]
      have hs0 : (alook ldap x).isSome = true := (alook_mem_keys ldap x).mpr hl
      have hs1 : (alook dbm x).isSome = true := (alook_mem_keys dbm x).mpr hd
      have hs2 : alook bssm x = none := (alook_eq_none_iff bssm x).mpr hb
      simp [patternCode, hs0, hs1, hs2]
    · have hn1 : x ∉ eppns1 := fun h => hd ((hm1 x).mp h).2.1
      have hn2 : x ∉ eppns2 := fun h => ((hm2 x).mp h).1 hl
      have hnc1 : x ∉ st1.checked := fun h => hn1 ((hc1 x).mp h)
      have hnc2 : x ∉ st2.checked := fun h => by
        rcases (q2_3 x).mp h with h' | h'
        · exact hn2 h'
        · exact hnc1 h'
      have hin : x ∈ eppns3 := (hm3 x).mpr ⟨hl, hd, hb⟩
      have hpa : alook st2.ldapAccounts x = alook ldap x := by
        rw [(hpr2 x hn2).1, (hpr1 x hn1).1, hl0l x]
      have hpb : alook st2.dbAccounts x = alook dbm x := by
        rw [(hpr2 x hn2).2.1, (hpr1 x hn1).2.1, hl0d x]
      have hpc : alook st2.bssAccounts x = alook bssm x := by
        rw [(hpr2 x hn2).2.2, (hpr1 x hn1).2.2, hl0b x]
      have hf3 : res3.filter (fun p => p.1 = x)
          = [(x, nodbCode (alook ldap x) (alook dbm x) (alook bssm x))] := by
        rw [q3_8 x, if_pos ⟨hin, hnc2⟩, hpa, hpb, hpc]
      have hf1 : res1.filter (fun p => p.1 = x) = [] := hskipP1 x hn1
      have hf2 : res2.filter (fun p => p.1 = x) = [] := hskipP2 x hn2
      have hch3 : x ∈ st3.checked := (q3_3 x).mpr (Or.inl hin)
      have hch4 : x ∈ st4.checked := hmo4 x hch3
      have hch5 : x ∈ st5.checked := hmo5 x hch4
      have hch6 : x ∈ st6.checked := hmo6 x hch5
      have hf4 : res4.filter (fun p => p.1 = x) = [] := hskipC4 x hch3
      have hf5 : res5.filter (fun p => p.1 = x) = [] := hskipC5 x hch4
      have hf6 : res6.filter (fun p => p.1 = x) = [] := hskipC6 x hch5
      have hf7 : res7.filter (fun p => p.1 = x) = [] := hskipC7 x hch6
      rw [if_pos (Or.inl hl), hf1, hf2, hf3, hf4, hf5, hf6, hf7]
      have hs0 : (alook ldap x).isSome = true := (alook_mem_keys ldap x).mpr hl
      have hs1 : alook dbm x = none := (alook_eq_none_iff dbm x).mpr hd
      have hs2 : (alook bssm x).isSome = true := (alook_mem_keys bssm x).mpr hb
      simp [patternCode, hs0, hs1, hs2]
    · have hn1 : x ∉ eppns1 := fun h => hd ((hm1 x).mp h).2.1
      have hn2 : x ∉ eppns2 := fun h => ((hm2 x).mp h).1 hl
      have hn3 : x ∉ eppns3 := fun h => hb ((hm3 x).mp h).2.2
      have hn4 : x ∉ eppns4 := fun h => hd ((hm4 x).mp h).2.1
      have hnc1 : x ∉ st1.checked := fun h => hn1 ((hc1 x).mp h)
      have hnc2 : x ∉ st2.checked := fun h => by
        rcases (q2_3 x).mp h with h' | h'
        · exact hn2 h'
        · exact hnc1 h'
      have hnc3 : x ∉ st3.checked := fun h => by
        rcases (q3_3 x).mp h with h' | h'
        · exact hn3 h'
        · exact hnc2 h'
      have hnc4 : x ∉ st4.checked := fun h => by
        rcases (q4_3 x).mp h with h' | h'
        · exact hn4 h'
        · exact hnc3 h'
      have hin : x ∈ eppns5 := (hm5 x).mpr ⟨hl, hd, hb⟩
      have hpa : alook st4.ldapAccounts x = alook ldap x := by
        rw [(hpr4 x hn4).1, (hpr3 x hn3).1, (hpr2 x hn2).1, (hpr1 x hn1).1, hl0l x]
      have hpb : alook st4.dbAccounts x = alook dbm x := by
        rw [(hpr4 x hn4).2.1, (hpr3 x hn3).2.1, (hpr2 x hn2).2.1, (hpr1 x hn1).2.1, hl0d x]
      have hpc : alook st4.bssAccounts x = alook bssm x := by
        rw [(hpr4 x hn4).2.2, (hpr3 x hn3).2.2, (hpr2 x hn2).2.2, (hpr1 x hn1).2.2, hl0b x]
      have hf5 : res5.filter (fun p => p.1 = x)
          = [(x, ldaponlyCode (alook ldap x) (alook dbm x) (alook bssm x))] := by
        rw [q5_8 x, if_pos ⟨hin, hnc4⟩, hpa, hpb, hpc]
      have hf1 : res1.filter (fun p => p.1 = x) = [] := hskipP1 x hn1
      have hf2 : res2.filter (fun p => p.1 = x) = [] := hskipP2 x hn2
      have hf3 : res3.filter (fun p => p.1 = x) = [] := hskipP3 x hn3
      have hf4 : res4.filter (fun p => p.1 = x) = [] := hskipP4 x hn4
      have hch5 : x ∈ st5.checked := (q5_3 x).mpr (Or.inl hin)
      have hch6 : x ∈ st6.checked := hmo6 x hch5
      have hf6 : res6.filter (fun p => p.1 = x) = [] := hskipC6 x hch5
      have hf7 : res7.filter (fun p => p.1 = x) = [] := hskipC7 x hch6
      rw [if_pos (Or.inl hl), hf1, hf2, hf3, hf4, hf5, hf6, hf7]
      have hs0 : (alook ldap x).isSome = true := (alook_mem_keys ldap x).mpr hl
      have hs1 : alook dbm x = none := (alook_eq_none_iff dbm x).mpr hd
      have hs2 : alook bssm x = none := (alook_eq_none_iff bssm x).mpr hb
      simp [patternCode, hs0, hs1, hs2]
    · have hn1 : x ∉ eppns1 := fun h => hl ((hm1 x).mp h).1
      have hnc1 : x ∉ st1.checked := fun h => hn1 ((hc1 x).mp h)
      have hin : x ∈ eppns2 := (hm2 x).mpr ⟨hl, hd, hb⟩
      have hpa : alook st1.ldapAccounts x = alook ldap x := by
        rw [(hpr1 x hn1).1, hl0l x]
      have hpb : alook st1.dbAccounts x = alook dbm x := by
        rw [(hpr1 x hn1).2.1, hl0d x]
      have hpc : alook st1.bssAccounts x = alook bssm x := by
        rw [(hpr1 x hn1).2.2, hl0b x]
      have hf2 : res2.filter (fun p => p.1 = x)
          = [(x, noldapCode (alook ldap x) (alook dbm x) (alook bssm x))] := by
        rw [q2_8 x, if_pos ⟨hin, hnc1⟩, hpa, hpb, hpc]
      have hf1 : res1.filter (fun p => p.1 = x) = [] := hskipP1 x hn1
      have hch2 : x ∈ st2.checked := (q2_3 x).mpr (Or.inl hin)
      have hch3 : x ∈ st3.checked := hmo3 x hch2
      have hch4 : x ∈ st4.checked := hmo4 x hch3
      have hch5 : x ∈ st5.checked := hmo5 x hch4
      have hch6 : x ∈ st6.checked := hmo6 x hch5
      have hf3 : res3.filter (fun p => p.1 = x) = [] := hskipC3 x hch2
      have hf4 : res4.filter (fun p => p.1 = x) = [] := hskipC4 x hch3
      have hf5 : res5.filter (fun p => p.1 = x) = [] := hskipC5 x hch4
      have hf6 : res6.filter (fun p => p.1 = x) = [] := hskipC6 x hch5
      have hf7 : res7.filter (fun p => p.1 = x) = [] := hskipC7 x hch6
      rw [if_pos (Or.inr (Or.inl hd)), hf1, hf2, hf3, hf4, hf5, hf6, hf7]
      have hs0 : alook ldap x = none := (alook_eq_none_iff ldap x).mpr hl
      have hs1 : (alook dbm x).isSome = true := (alook_mem_keys dbm x).mpr hd
      have hs2 : (alook bssm x).isSome = true := (alook_mem_keys bssm x).mpr hb
      simp [patternCode, hs0, hs1, hs2]
    · have hn1 : x ∉ eppns1 := fun h => hl ((hm1 x).mp h).1
      have hn2 : x ∉ eppns2 := fun h => hb ((hm2 x).mp h).2.2
      have hn3 : x ∉ eppns3 := fun h => hl ((hm3 x).mp h).1
      have hn4 : x ∉ eppns4 := fun h => hl ((hm4 x).mp h).1
      have hn5 : x ∉ eppns5 := fun h => hl ((hm5 x).mp h).1
      have hnc1 : x ∉ st1.checked := fun h => hn1 ((hc1 x).mp h)
      have hnc2 : x ∉ st2.checked := fun h => by
        rcases (q2_3 x).mp h with h' | h'
        · exact hn2 h'
        · exact hnc1 h'
      have hnc3 : x ∉ st3.checked := fun h => by
        rcases (q3_3 x).mp h with h' | h'
        · exact hn3 h'
        · exact hnc2 h'
      have hnc4 : x ∉ st4.checked := fun h => by
        rcases (q4_3 x).mp h with h' | h'
        · exact hn4 h'
        · exact hnc3 h'
      have hnc5 : x ∉ st5.checked := fun h => by
        rcases (q5_3 x).mp h with h' | h'
        · exact hn5 h'
        · exact hnc4 h'
      have hin : x ∈ eppns6 := (hm6 x).mpr ⟨hl, hd, hb⟩
      have hpa : alook st5.ldapAccounts x = alook ldap x := by
        rw [(hpr5 x hn5).1, (hpr4 x hn4).1, (hpr3 x hn3).1, (hpr2 x hn2).1, (hpr1 x hn1).1, hl0l x]
      have hpb : alook st5.dbAccounts x = alook dbm x := by
        rw [(hpr5 x hn5).2.1, (hpr4 x hn4).2.1, (hpr3 x hn3).2.1, (hpr2 x hn2).2.1, (hpr1 x hn1).2.1, hl0d x]
      have hpc : alook st5.bssAccounts x = alook bssm x := by
        rw [(hpr5 x hn5).2.2, (hpr4 x hn4).2.2, (hpr3 x hn3).2.2, (hpr2 x hn2).2.2, (hpr1 x hn1).2.2, hl0b x]
      have hf6 : res6.filter (fun p => p.1 = x)
          = [(x, dbonlyCode (alook ldap x) (alook dbm x) (alook bssm x))] := by
        rw [q6_8 x, if_pos ⟨hin, hnc5⟩, hpa, hpb, hpc]
      have hf1 : res1.filter (fun p => p.1 = x) = [] := hskipP1 x hn1
      have hf2 : res2.filter (fun p => p.1 = x) = [] := hskipP2 x hn2
      have hf3 : res3.filter (fun p => p.1 = x) = [] := hskipP3 x hn3
      have hf4 : res4.filter (fun p => p.1 = x) = [] := hskipP4 x hn4
      have hf5 : res5.filter (fun p => p.1 = x) = [] := hskipP5 x hn5
      have hch6 : x ∈ st6.checked := (q6_3 x).mpr (Or.inl hin)
      have hf7 : res7.filter (fun p => p.1 = x) = [] := hskipC7 x hch6
      rw [if_pos (Or.inr (Or.inl hd)), hf1, hf2, hf3, hf4, hf5, hf6, hf7]
      have hs0 : alook ldap x = none := (alook_eq_none_iff ldap x).mpr hl
      have hs1 : (alook dbm x).isSome = true := (alook_mem_keys dbm x).mpr hd
      have hs2 : alook bssm x = none := (alook_eq_none_iff bssm x).mpr hb
      simp [patternCode, hs0, hs1, hs2]
    · have hn1 : x ∉ eppns1 := fun h => hl ((hm1 x).mp h).1
      have hn2 : x ∉ eppns2 := fun h => hd ((hm2 x).mp h).2.1
      have hn3 : x ∉ eppns3 := fun h => hl ((hm3 x).mp h).1
      have hn4 : x ∉ eppns4 := fun h => hl ((hm4 x).mp h).1
      have hn5 : x ∉ eppns5 := fun h => hl ((hm5 x).mp h).1
      have hn6 : x ∉ eppns6 := fun h => hd ((hm6 x).mp h).2.1
      have hnc1 : x ∉ st1.checked := fun h => hn1 ((hc1 x).mp h)
      have hnc2 : x ∉ st2.checked := fun h => by
        rcases (q2_3 x).mp h with h' | h'
        · exact hn2 h'
        · exact hnc1 h'
      have hnc3 : x ∉ st3.checked := fun h => by
        rcases (q3_3 x).mp h with h' | h'
        · exact hn3 h'
        · exact hnc2 h'
      have hnc4 : x ∉ st4.checked := fun h => by
        rcases (q4_3 x).mp h with h' | h'
        · exact hn4 h'
        · exact hnc3 h'
      have hnc5 : x ∉ st5.checked := fun h => by
        rcases (q5_3 x).mp h with h' | h'
        · exact hn5 h'
        · exact hnc4 h'
      have hnc6 : x ∉ st6.checked := fun h => by
        rcases (q6_3 x).mp h with h' | h'
        · exact hn6 h'
        · exact hnc5 h'
      have hin : x ∈ eppns7 := (hm7 x).mpr ⟨hl, hd, hb⟩
      have hpa : alook st6.ldapAccounts x = alook ldap x := by
        rw [(hpr6 x hn6).1, (hpr5 x hn5).1, (hpr4 x hn4).1, (hpr3 x hn3).1, (hpr2 x hn2).1, (hpr1 x hn1).1, hl0l x]
      have hpb : alook st6.dbAccounts x = alook dbm x := by
        rw [(hpr6 x hn6).2.1, (hpr5 x hn5).2.1, (hpr4 x hn4).2.1, (hpr3 x hn3).2.1, (hpr2 x hn2).2.1, (hpr1 x hn1).2.1, hl0d x]
      have hpc : alook st6.bssAccounts x = alook bssm x := by
        rw [(hpr6 x hn6).2.2, (hpr5 x hn5).2.2, (hpr4 x hn4).2.2, (hpr3 x hn3).2.2, (hpr2 x hn2).2.2, (hpr1 x hn1).2.2, hl0b x]
      have hf7 : res7.filter (fun p => p.1 = x)
          = [(x, bssonlyCode (alook ldap x) (alook dbm x) (alook bssm x))] := by
        rw [q7_8 x, if_pos ⟨hin, hnc6⟩, hpa, hpb, hpc]
      have hf1 : res1.filter (fun p => p.1 = x) = [] := hskipP1 x hn1
      have hf2 : res2.filter (fun p => p.1 = x) = [] := hskipP2 x hn2
      have hf3 : res3.filter (fun p => p.1 = x) = [] := hskipP3 x hn3
      have hf4 : res4.filter (fun p => p.1 = x) = [] := hskipP4 x hn4
      have hf5 : res5.filter (fun p => p.1 = x) = [] := hskipP5 x hn5
      have hf6 : res6.filter (fun p => p.1 = x) = [] := hskipP6 x hn6
      have hch7 : x ∈ st7.checked := (q7_3 x).mpr (Or.inl hin)
      rw [if_pos (Or.inr (Or.inr hb)), hf1, hf2, hf3, hf4, hf5, hf6, hf7]
      have hs0 : alook ldap x = none := (alook_eq_none_iff ldap x).mpr hl
      have hs1 : alook dbm x = none := (alook_eq_none_iff dbm x).mpr hd
      have hs2 : (alook bssm x).isSome = true := (alook_mem_keys bssm x).mpr hb
      simp [patternCode, hs0, hs1, hs2]
    · have hn1 : x ∉ eppns1 := fun h => hl ((hm1 x).mp h).1
      have hn2 : x ∉ eppns2 := fun h => hd ((hm2 x).mp h).2.1
      have hn3 : x ∉ eppns3 := fun h => hl ((hm3 x).mp h).1
      have hn4 : x ∉ eppns4 := fun h => hl ((hm4 x).mp h).1
      have hn5 : x ∉ eppns5 := fun h => hl ((hm5 x).mp h).1
      have hn6 : x ∉ eppns6 := fun h => hd ((hm6 x).mp h).2.1
      have hn7 : x ∉ eppns7 := fun h => hb ((hm7 x).mp h).2.2
      rw [if_neg (fun h => h.elim hl fun h2 => h2.elim hd hb)]
      rw [hskipP1 x hn1]
      rw [hskipP2 x hn2]
      rw [hskipP3 x hn3]
      rw [hskipP4 x hn4]
      rw [hskipP5 x hn5]
      rw [hskipP6 x hn6]
      rw [hskipP7 x hn7]
      simp
  · intro x hx op hop
    by_cases hl : x ∈ keysOf ldap <;> by_cases hd : x ∈ keysOf dbm <;>
      by_cases hb : x ∈ keysOf bssm
    · have hs0 : (alook ldap x).isSome = true := (alook_mem_keys ldap x).mpr hl
      have hs1 : (alook dbm x).isSome = true := (alook_mem_keys dbm x).mpr hd
      have hs2 : (alook bssm x).isSome = true := (alook_mem_keys bssm x).mpr hb
      simp [patternOps, noOps, hs0, hs1, hs2] at hop
    · have hn1 : x ∉ eppns1 := fun h => hb ((hm1 x).mp h).2.2
      have hn2 : x ∉ eppns2 := fun h => ((hm2 x).mp h).1 hl
      have hn3 : x ∉ eppns3 := fun h => ((hm3 x).mp h).2.1 hd
      have hnc1 : x ∉ st1.checked := fun h => hn1 ((hc1 x).mp h)
      have hnc2 : x ∉ st2.checked := fun h => by
        rcases (q2_3 x).mp h with h' | h'
        · exact hn2 h'
        · exact hnc1 h'
      have hnc3 : x ∉ st3.checked := fun h => by
        rcases (q3_3 x).mp h with h' | h'
        · exact hn3 h'
        · exact hnc2 h'
      have hpa : alook st3.ldapAccounts x = alook ldap x := by
        rw [(hpr3 x hn3).1, (hpr2 x hn2).1, (hpr1 x hn1).1, hl0l x]
      have hpb : alook st3.dbAccounts x = alook dbm x := by
        rw [(hpr3 x hn3).2.1, (hpr2 x hn2).2.1, (hpr1 x hn1).2.1, hl0d x]
      have hpc : alook st3.bssAccounts x = alook bssm x := by
        rw [(hpr3 x hn3).2.2, (hpr2 x hn2).2.2, (hpr1 x hn1).2.2, hl0b x]
      have hin : x ∈ eppns4 := (hm4 x).mpr ⟨hl, hd, hb⟩
      have hq := q4_9 x hin hnc3
      rw [hpa, hpb, hpc] at hq
      have hs0 : (alook ldap x).isSome = true := (alook_mem_keys ldap x).mpr hl
      have hs1 : (alook dbm x).isSome = true := (alook_mem_keys dbm x).mpr hd
      have hs2 : alook bssm x = none := (alook_eq_none_iff bssm x).mpr hb
      simp [patternOps, hs0, hs1, hs2] at hop
      simp [hs0, hs1, hs2] at hq
      have hmem : op ∈ dops4 := hq op hop
      rw [hfinal, hopsF]
      exact List.mem_append.mpr (Or.inr (List.mem_append.mpr (Or.inr (List.mem_append.mpr (Or.inr (List.mem_append.mpr (Or.inl hmem)))))))
    · have hn1 : x ∉ eppns1 := fun h => hd ((hm1 x).mp h).2.1
      have hn2 : x ∉ eppns2 := fun h => ((hm2 x).mp h).1 hl
      have hnc1 : x ∉ st1.checked := fun h => hn1 ((hc1 x).mp h)
      have hnc2 : x ∉ st2.checked := fun h => by
        rcases (q2_3 x).mp h with h' | h'
        · exact hn2 h'
        · exact hnc1 h'
      have hpa : alook st2.ldapAccounts x = alook ldap x := by
        rw [(hpr2 x hn2).1, (hpr1 x hn1).1, hl0l x]
      have hpb : alook st2.dbAccounts x = alook dbm x := by
        rw [(hpr2 x hn2).2.1, (hpr1 x hn1).2.1, hl0d x]
      have hpc : alook st2.bssAccounts x = alook bssm x := by
        rw [(hpr2 x hn2).2.2, (hpr1 x hn1).2.2, hl0b x]
      have hin : x ∈ eppns3 := (hm3 x).mpr ⟨hl, hd, hb⟩
      have hq := q3_9 x hin hnc2
      rw [hpa, hpb, hpc] at hq
      have hs0 : (alook ldap x).isSome = true := (alook_mem_keys ldap x).mpr hl
      have hs1 : alook dbm x = none := (alook_eq_none_iff dbm x).mpr hd
      have hs2 : (alook bssm x).isSome = true := (alook_mem_keys bssm x).mpr hb
      simp [patternOps, hs0, hs1, hs2] at hop
      simp [hs0, hs1, hs2] at hq
      have hmem : op ∈ dops3 := hq op hop
      rw [hfinal, hopsF]
      exact List.mem_append.mpr (Or.inr (List.mem_append.mpr (Or.inr (List.mem_append.mpr (Or.inl hmem)))))
    · have hs0 : (alook ldap x).isSome = true := (alook_mem_keys ldap x).mpr hl
      have hs1 : alook dbm x = none := (alook_eq_none_iff dbm x).mpr hd
      have hs2 : alook bssm x = none := (alook_eq_none_iff bssm x).mpr hb
      simp [patternOps, noOps, hs0, hs1, hs2] at hop
    · have hn1 : x ∉ eppns1 := fun h => hl ((hm1 x).mp h).1
      have hnc1 : x ∉ st1.checked := fun h => hn1 ((hc1 x).mp h)
      have hpa : alook st1.ldapAccounts x = alook ldap x := by
        rw [(hpr1 x hn1).1, hl0l x]
      have hpb : alook st1.dbAccounts x = alook dbm x := by
        rw [(hpr1 x hn1).2.1, hl0d x]
      have hpc : alook st1.bssAccounts x = alook bssm x := by
        rw [(hpr1 x hn1).2.2, hl0b x]
      have hin : x ∈ eppns2 := (hm2 x).mpr ⟨hl, hd, hb⟩
      have hq := q2_9 x hin hnc1
      rw [hpa, hpb, hpc] at hq
      have hs0 : alook ldap x = none := (alook_eq_none_iff ldap x).mpr hl
      have hs1 : (alook dbm x).isSome = true := (alook_mem_keys dbm x).mpr hd
      have hs2 : (alook bssm x).isSome = true := (alook_mem_keys bssm x).mpr hb
      simp [patternOps, hs0, hs1, hs2] at hop
      simp [hs0, hs1, hs2] at hq
      have hmem : op ∈ dops2 := hq op hop
      rw [hfinal, hopsF]
      exact List.mem_append.mpr (Or.inr (List.mem_append.mpr (Or.inl hmem)))
    · have hn1 : x ∉ eppns1 := fun h => hl ((hm1 x).mp h).1
      have hn2 : x ∉ eppns2 := fun h => hb ((hm2 x).mp h).2.2
      have hn3 : x ∉ eppns3 := fun h => hl ((hm3 x).mp h).1
      have hn4 : x ∉ eppns4 := fun h => hl ((hm4 x).mp h).1
      have hn5 : x ∉ eppns5 := fun h => hl ((hm5 x).mp h).1
      have hnc1 : x ∉ st1.checked := fun h => hn1 ((hc1 x).mp h)
      have hnc2 : x ∉ st2.checked := fun h => by
        rcases (q2_3 x).mp h with h' | h'
        · exact hn2 h'
        · exact hnc1 h'
      have hnc3 : x ∉ st3.checked := fun h => by
        rcases (q3_3 x).mp h with h' | h'
        · exact hn3 h'
        · exact hnc2 h'
      have hnc4 : x ∉ st4.checked := fun h => by
        rcases (q4_3 x).mp h with h' | h'
        · exact hn4 h'
        · exact hnc3 h'
      have hnc5 : x ∉ st5.checked := fun h => by
        rcases (q5_3 x).mp h with h' | h'
        · exact hn5 h'
        · exact hnc4 h'
      have hpa : alook st5.ldapAccounts x = alook ldap x := by
        rw [(hpr5 x hn5).1, (hpr4 x hn4).1, (hpr3 x hn3).1, (hpr2 x hn2).1, (hpr1 x hn1).1, hl0l x]
      have hpb : alook st5.dbAccounts x = alook dbm x := by
        rw [(hpr5 x hn5).2.1, (hpr4 x hn4).2.1, (hpr3 x hn3).2.1, (hpr2 x hn2).2.1, (hpr1 x hn1).2.1, hl0d x]
      have hpc : alook st5.bssAccounts x = alook bssm x := by
        rw [(hpr5 x hn5).2.2, (hpr4 x hn4).2.2, (hpr3 x hn3).2.2, (hpr2 x hn2).2.2, (hpr1 x hn1).2.2, hl0b x]
      have hin : x ∈ eppns6 := (hm6 x).mpr ⟨hl, hd, hb⟩
      have hq := q6_9 x hin hnc5
      rw [hpa, hpb, hpc] at hq
      have hs0 : alook ldap x = none := (alook_eq_none_iff ldap x).mpr hl
      have hs1 : (alook dbm x).isSome = true := (alook_mem_keys dbm x).mpr hd
      have hs2 : alook bssm x = none := (alook_eq_none_iff bssm x).mpr hb
      simp [patternOps, hs0, hs1, hs2] at hop
      simp [hs0, hs1, hs2] at hq
      have hmem : op ∈ dops6 := hq op hop
      rw [hfinal, hopsF]
      exact List.mem_append.mpr (Or.inr (List.mem_append.mpr (Or.inr (List.mem_append.mpr (Or.inr (List.mem_append.mpr (Or.inr (List.mem_append.mpr (Or.inr (List.mem_append.mpr (Or.inl hmem)))))))))))
    · have hn1 : x ∉ eppns1 := fun h => hl ((hm1 x).mp h).1
      have hn2 : x ∉ eppns2 := fun h => hd ((hm2 x).mp h).2.1
      have hn3 : x ∉ eppns3 := fun h => hl ((hm3 x).mp h).1
      have hn4 : x ∉ eppns4 := fun h => hl ((hm4 x).mp h).1
      have hn5 : x ∉ eppns5 := fun h => hl ((hm5 x).mp h).1
      have hn6 : x ∉ eppns6 := fun h => hd ((hm6 x).mp h).2.1
      have hnc1 : x ∉ st1.checked := fun h => hn1 ((hc1 x).mp h)
      have hnc2 : x ∉ st2.checked := fun h => by
        rcases (q2_3 x).mp h with h' | h'
        · exact hn2 h'
        · exact hnc1 h'
      have hnc3 : x ∉ st3.checked := fun h => by
        rcases (q3_3 x).mp h with h' | h'
        · exact hn3 h'
        · exact hnc2 h'
      have hnc4 : x ∉ st4.checked := fun h => by
        rcases (q4_3 x).mp h with h' | h'
        · exact hn4 h'
        · exact hnc3 h'
      have hnc5 : x ∉ st5.checked := fun h => by
        rcases (q5_3 x).mp h with h' | h'
        · exact hn5 h'
        · exact hnc4 h'
      have hnc6 : x ∉ st6.checked := fun h => by
        rcases (q6_3 x).mp h with h' | h'
        · exact hn6 h'
        · exact hnc5 h'
      have hpa : alook st6.ldapAccounts x = alook ldap x := by
        rw [(hpr6 x hn6).1, (hpr5 x hn5).1, (hpr4 x hn4).1, (hpr3 x hn3).1, (hpr2 x hn2).1, (hpr1 x hn1).1, hl0l x]
      have hpb : alook st6.dbAccounts x = alook dbm x := by
        rw [(hpr6 x hn6).2.1, (hpr5 x hn5).2.1, (hpr4 x hn4).2.1, (hpr3 x hn3).2.1, (hpr2 x hn2).2.1, (hpr1 x hn1).2.1, hl0d x]
      have hpc : alook st6.bssAccounts x = alook bssm x := by
        rw [(hpr6 x hn6).2.2, (hpr5 x hn5).2.2, (hpr4 x hn4).2.2, (hpr3 x hn3).2.2, (hpr2 x hn2).2.2, (hpr1 x hn1).2.2, hl0b x]
      have hin : x ∈ eppns7 := (hm7 x).mpr ⟨hl, hd, hb⟩
      have hq := q7_9 x hin hnc6
      rw [hpa, hpb, hpc] at hq
      have hs0 : alook ldap x = none := (alook_eq_none_iff ldap x).mpr hl
      have hs1 : alook dbm x = none := (alook_eq_none_iff dbm x).mpr hd
      have hs2 : (alook bssm x).isSome = true := (alook_mem_keys bssm x).mpr hb
      simp [patternOps, hs0, hs1, hs2] at hop
      simp [hs0, hs1, hs2] at hq
      have hmem : op ∈ dops7 := hq op hop
      rw [hfinal, hopsF]
      exact List.mem_append.mpr (Or.inr (List.mem_append.mpr (Or.inr (List.mem_append.mpr (Or.inr (List.mem_append.mpr (Or.inr (List.mem_append.mpr (Or.inr (List.mem_append.mpr (Or.inr hmem)))))))))))
    · exact absurd hx (fun h => h.elim hl fun h2 => h2.elim hd hb)
  · intro hwl hwd hwb op hop
    have hwf0 : WF3 st0 := ⟨hwl, hwd, hwb⟩
    obtain ⟨hwf1, hat1⟩ := q1_10 hwf0
    obtain ⟨hwf2, hat2⟩ := q2_10 hwf1
    obtain ⟨hwf3, hat3⟩ := q3_10 hwf2
    obtain ⟨hwf4, hat4⟩ := q4_10 hwf3
    obtain ⟨hwf5, hat5⟩ := q5_10 hwf4
    obtain ⟨hwf6, hat6⟩ := q6_10 hwf5
    obtain ⟨_, hat7⟩ := q7_10 hwf6
    rw [hfinal, hopsF] at hop
    simp only [List.mem_append] at hop
    rcases hop with h | h | h | h | h | h | h
    · obtain ⟨x, hxe, hxnc, hkey, hxop⟩ := hat1 op h
      simp [noOps] at hxop
    · obtain ⟨x, hxe, hxnc, hkey, hxop⟩ := hat2 op h
      obtain ⟨hl, hd, hb⟩ := (hm2 x).mp hxe
      have hn1 : x ∉ eppns1 := fun h => hl ((hm1 x).mp h).1
      have hpa : alook st1.ldapAccounts x = alook ldap x := by
        rw [(hpr1 x hn1).1, hl0l x]
      have hpb : alook st1.dbAccounts x = alook dbm x := by
        rw [(hpr1 x hn1).2.1, hl0d x]
      have hpc : alook st1.bssAccounts x = alook bssm x := by
        rw [(hpr1 x hn1).2.2, hl0b x]
      rw [hpa, hpb, hpc] at hxop
      have hs0 : alook ldap x = none := (alook_eq_none_iff ldap x).mpr hl
      have hs1 : (alook dbm x).isSome = true := (alook_mem_keys dbm x).mpr hd
      have hs2 : (alook bssm x).isSome = true := (alook_mem_keys bssm x).mpr hb
      refine ⟨x, Or.inr (Or.inl hd), hkey, ?_⟩
      simpa [patternOps, hs0, hs1, hs2] using hxop
    · obtain ⟨x, hxe, hxnc, hkey, hxop⟩ := hat3 op h
      obtain ⟨hl, hd, hb⟩ := (hm3 x).mp hxe
      have hn1 : x ∉ eppns1 := fun h => hd ((hm1 x).mp h).2.1
      have hn2 : x ∉ eppns2 := fun h => ((hm2 x).mp h).1 hl
      have hpa : alook st2.ldapAccounts x = alook ldap x := by
        rw [(hpr2 x hn2).1, (hpr1 x hn1).1, hl0l x]
      have hpb : alook st2.dbAccounts x = alook dbm x := by
        rw [(hpr2 x hn2).2.1, (hpr1 x hn1).2.1, hl0d x]
      have hpc : alook st2.bssAccounts x = alook bssm x := by
        rw [(hpr2 x hn2).2.2, (hpr1 x hn1).2.2, hl0b x]
      rw [hpa, hpb, hpc] at hxop
      have hs0 : (alook ldap x).isSome = true := (alook_mem_keys ldap x).mpr hl
      have hs1 : alook dbm x = none := (alook_eq_none_iff dbm x).mpr hd
      have hs2 : (alook bssm x).isSome = true := (alook_mem_keys bssm x).mpr hb
      refine ⟨x, Or.inl hl, hkey, ?_⟩
      simpa [patternOps, hs0, hs1, hs2] using hxop
    · obtain ⟨x, hxe, hxnc, hkey, hxop⟩ := hat4 op h
      obtain ⟨hl, hd, hb⟩ := (hm4 x).mp hxe
      have hn1 : x ∉ eppns1 := fun h => hb ((hm1 x).mp h).2.2
      have hn2 : x ∉ eppns2 := fun h => ((hm2 x).mp h).1 hl
      have hn3 : x ∉ eppns3 := fun h => ((hm3 x).mp h).2.1 hd
      have hpa : alook st3.ldapAccounts x = alook ldap x := by
        rw [(hpr3 x hn3).1, (hpr2 x hn2).1, (hpr1 x hn1).1, hl0l x]
      have hpb : alook st3.dbAccounts x = alook dbm x := by
        rw [(hpr3 x hn3).2.1, (hpr2 x hn2).2.1, (hpr1 x hn1).2.1, hl0d x]
      have hpc : alook st3.bssAccounts x = alook bssm x := by
        rw [(hpr3 x hn3).2.2, (hpr2 x hn2).2.2, (hpr1 x hn1).2.2, hl0b x]
      rw [hpa, hpb, hpc] at hxop
      have hs0 : (alook ldap x).isSome = true := (alook_mem_keys ldap x).mpr hl
      have hs1 : (alook dbm x).isSome = true := (alook_mem_keys dbm x).mpr hd
      have hs2 : alook bssm x = none := (alook_eq_none_iff bssm x).mpr hb
      refine ⟨x, Or.inl hl, hkey, ?_⟩
      simpa [patternOps, hs0, hs1, hs2] using hxop
    · obtain ⟨x, hxe, hxnc, hkey, hxop⟩ := hat5 op h
      simp [noOps] at hxop
    · obtain ⟨x, hxe, hxnc, hkey, hxop⟩ := hat6 op h
      obtain ⟨hl, hd, hb⟩ := (hm6 x).mp hxe
      have hn1 : x ∉ eppns1 := fun h => hl ((hm1 x).mp h).1
      have hn2 : x ∉ eppns2 := fun h => hb ((hm2 x).mp h).2.2
      have hn3 : x ∉ eppns3 := fun h => hl ((hm3 x).mp h).1
      have hn4 : x ∉ eppns4 := fun h => hl ((hm4 x).mp h).1
      have hn5 : x ∉ eppns5 := fun h => hl ((hm5 x).mp h).1
      have hpa : alook st5.ldapAccounts x = alook ldap x := by
        rw [(hpr5 x hn5).1, (hpr4 x hn4).1, (hpr3 x hn3).1, (hpr2 x hn2).1, (hpr1 x hn1).1, hl0l x]
      have hpb : alook st5.dbAccounts x = alook dbm x := by
        rw [(hpr5 x hn5).2.1, (hpr4 x hn4).2.1, (hpr3 x hn3).2.1, (hpr2 x hn2).2.1, (hpr1 x hn1).2.1, hl0d x]
      have hpc : alook st5.bssAccounts x = alook bssm x := by
        rw [(hpr5 x hn5).2.2, (hpr4 x hn4).2.2, (hpr3 x hn3).2.2, (hpr2 x hn2).2.2, (hpr1 x hn1).2.2, hl0b x]
      rw [hpa, hpb, hpc] at hxop
      have hs0 : alook ldap x = none := (alook_eq_none_iff ldap x).mpr hl
      have hs1 : (alook dbm x).isSome = true := (alook_mem_keys dbm x).mpr hd
      have hs2 : alook bssm x = none := (alook_eq_none_iff bssm x).mpr hb
      refine ⟨x, Or.inr (Or.inl hd), hkey, ?_⟩
      simpa [patternOps, hs0, hs1, hs2] using hxop
    · obtain ⟨x, hxe, hxnc, hkey, hxop⟩ := hat7 op h
      obtain ⟨hl, hd, hb⟩ := (hm7 x).mp hxe
      have hn1 : x ∉ eppns1 := fun h => hl ((hm1 x).mp h).1
      have hn2 : x ∉ eppns2 := fun h => hd ((hm2 x).mp h).2.1
      have hn3 : x ∉ eppns3 := fun h => hl ((hm3 x).mp h).1
      have hn4 : x ∉ eppns4 := fun h => hl ((hm4 x).mp h).1
      have hn5 : x ∉ eppns5 := fun h => hl ((hm5 x).mp h).1
      have hn6 : x ∉ eppns6 := fun h => hd ((hm6 x).mp h).2.1
      have hpa : alook st6.ldapAccounts x = alook ldap x := by
        rw [(hpr6 x hn6).1, (hpr5 x hn5).1, (hpr4 x hn4).1, (hpr3 x hn3).1, (hpr2 x hn2).1, (hpr1 x hn1).1, hl0l x]
      have hpb : alook st6.dbAccounts x = alook dbm x := by
        rw [(hpr6 x hn6).2.1, (hpr5 x hn5).2.1, (hpr4 x hn4).2.1, (hpr3 x hn3).2.1, (hpr2 x hn2).2.1, (hpr1 x hn1).2.1, hl0d x]
      have hpc : alook st6.bssAccounts x = alook bssm x := by
        rw [(hpr6 x hn6).2.2, (hpr5 x hn5).2.2, (hpr4 x hn4).2.2, (hpr3 x hn3).2.2, (hpr2 x hn2).2.2, (hpr1 x hn1).2.2, hl0b x]
      rw [hpa, hpb, hpc] at hxop
      have hs0 : alook ldap x = none := (alook_eq_none_iff ldap x).mpr hl
      have hs1 : alook dbm x = none := (alook_eq_none_iff dbm x).mpr hd
      have hs2 : (alook bssm x).isSome = true := (alook_mem_keys bssm x).mpr hb
      refine ⟨x, Or.inr (Or.inr hb), hkey, ?_⟩
      simpa [patternOps, hs0, hs1, hs2] using hxop

/-! ## `aolpsync/aliases.py`: the alias map

`AliasesMap` keeps a forward dict `aliases_` (alias → target) and a
reverse dict `reverse_aliases_` (target → set of aliases).  Python sets
of strings are modelled as lists; `sadd` is `set.add` (no duplicate
insertion) and `supdate` is `set.update`. -/

/-- `AliasError` raised by `add_alias`, plus a marker for the case where
the target-chasing `while` loop of `add_alias` would never terminate
(only possible on a forward map that already contains a cycle avoiding
the original target). -/
inductive AliasErr
  | cycle
  | duplicate
  | nonterminating
deriving DecidableEq, Repr

structure AliasesMap where
  aliases : List (String × String)
  reverseAliases : List (String × List String)
deriving DecidableEq, Repr

/-- Python `set.add` on a set-as-list. -/
def sadd (l : List String) (x : String) : List String :=
  if x ∈ l then l else l ++ [x]

/-- Python `set.update` on sets-as-lists. -/
def supdate (l l' : List String) : List String := l'.foldl sadd l

/-- The `while target in self.aliases_` loop of `add_alias`: follow the
forward map from `t`, raising the infinite-loop `AliasError` when the
walk comes back to the original target `ori`.  The fuel argument is set
to `aliases.length + 1` by the caller; exhausting it while still inside
the map means the Python loop runs forever (reported as
`AliasErr.nonterminating`). -/
def chaseTarget (al : List (String × String)) (ori : String) :
    Nat → String → Except AliasErr String
  | 0, t => if (alook al t).isSome then .error .nonterminating else .ok t
  | n + 1, t =>
      match alook al t with
      | none => .ok t
      | some t' =>
          if t' = ori then .error .cycle else chaseTarget al ori n t'

/-- `AliasesMap.add_alias( target , alias )`.  Follows the Python body
statement by statement: resolve the target through the forward map (with
the infinite-loop check), do nothing when the resolved target equals the
alias, check for a conflicting duplicate, insert the forward and reverse
bindings, and re-point every old alias of `alias` to the new resolved
target. -/
def add_alias (m : AliasesMap) (target als : String) : Except AliasErr AliasesMap := do
  let t ← chaseTarget m.aliases target (m.aliases.length + 1) target
  if t = als then return m
  match alook m.aliases als with
  | some old =>
      if old = t then return m else throw .duplicate
  | none =>
      let rev0 := if (alook m.reverseAliases t).isSome then m.reverseAliases
                  else aset m.reverseAliases t []
      let al1 := aset m.aliases als t
      let rev1 := aset rev0 t (sadd ((alook rev0 t).getD []) als)
      match alook rev1 als with
      | none => return ⟨al1, rev1⟩
      | some olds =>
          let al2 := olds.foldl
            (fun al old => if old = t then aremove al old else aset al old t) al1
          let rev2 := aset rev1 t (supdate ((alook rev1 t).getD []) olds)
          return ⟨al2, aremove rev2 als⟩

/-- `AliasesMap.get_main_account`. -/
def get_main_account (m : AliasesMap) (address : String) : String :=
  match alook m.aliases address with
  | some t => t
  | none => address

theorem chaseTarget_none (al : List (String × String)) (ori t : String) (n : Nat)
    (h : alook al t = none) : chaseTarget al ori (n + 1) t = .ok t := by
  simp [chaseTarget, h]

theorem chaseTarget_step (al : List (String × String)) (ori t t' : String) (n : Nat)
    (h : alook al t = some t') (hne : t' ≠ ori) :
    chaseTarget al ori (n + 1) t = chaseTarget al ori n t' := by
  simp [chaseTarget, h, hne]

/-- Effect on one key of the re-pointing loop of `add_alias`: any key of
`olds` other than the resolved target ends bound to the target, and a
binding to the target already in place survives the loop. -/
theorem repoint_alook (t A : String) (hA : A ≠ t) :
    ∀ (olds : List String) (al : List (String × String)),
      (A ∈ olds ∨ alook al A = some t) →
      alook (olds.foldl
        (fun al old => if old = t then aremove al old else aset al old t) al) A
        = some t := by
  intro olds
  induction olds with
  | nil =>
      intro al h
      rcases h with h | h
      · exact absurd h (List.not_mem_nil A)
      · simpa using h
  | cons old rest ih =>
      intro al h
      rw [List.foldl_cons]
      by_cases hoA : old = A
      · refine ih _ (Or.inr ?_)
        subst hoA
        rw [if_neg hA]
        exact alook_aset_self al old t
      · rcases h with h | h
        · rcases List.mem_cons.mp h with h' | h'
          · exact absurd h'.symm hoA
          · exact ih _ (Or.inl h')
        · refine ih _ (Or.inr ?_)
          by_cases hot : old = t
          · rw [if_pos hot, alook_aremove_ne _ _ _ (fun e => hoA e.symm)]
            exact h
          · rw [if_neg hot, alook_aset_ne _ _ _ _ (fun e => hoA e.symm)]
            exact h

/-- C5 (amended): transitive collapse of `add_alias` holds under explicit
well-formedness of the starting map.  If the map binds alias `A` to
target `B` (as left by a successful `addAlias(B, A)`), `B` and `C` are
not aliases themselves, the reverse map lists `A` among the aliases of
`B`, and `A`, `B`, `C` are suitably distinct, then `addAlias(C, B)`
succeeds and re-points `A` so that `get_main_account A = C`. -/
theorem C5_amended (m : AliasesMap) (A B C : String) (olds : List String)
    (_hAB : alook m.aliases A = some B)
    (hB : alook m.aliases B = none)
    (hC : alook m.aliases C = none)
    (hrev : alook m.reverseAliases B = some olds) (hA : A ∈ olds)
    (hAC : A ≠ C) (hBC : B ≠ C) :
    ∃ m', add_alias m C B = .ok m' ∧ get_main_account m' A = C := by
  have hch := chaseTarget_none m.aliases C C m.aliases.length hC
  have hCB : ¬ (C = B) := fun h => hBC h.symm
  have hBne : ∀ rev0 : List (String × List String),
      alook rev0 B = some olds →
      alook (aset rev0 C (sadd ((alook rev0 C).getD []) B)) B = some olds := by
    intro rev0 h0
    rw [alook_aset_ne _ _ _ _ hBC]
    exact h0
  unfold add_alias
  rw [hch]
  simp only [Except.bind, pure, Except.pure, bind, Monad.toBind, Except.instMonad,
    if_neg hCB, hB]
  by_cases hrC : (alook m.reverseAliases C).isSome
  · rw [if_pos hrC, hBne m.reverseAliases hrev]
    refine ⟨_, rfl, ?_⟩
    unfold get_main_account
    rw [repoint_alook C A hAC olds _ (Or.inl hA)]
  · rw [if_neg hrC, hBne _ (by rw [alook_aset_ne _ _ _ _ hBC]; exact hrev)]
    refine ⟨_, rfl, ?_⟩
    unfold get_main_account
    rw [repoint_alook C A hAC olds _ (Or.inl hA)]

/-- C5 (witness): the amended transitive-collapse theorem applied to the
one-alias map `a → b` with reverse entry `b → {a}`. -/
theorem C5_amended_witness :
    ∃ m', add_alias ⟨[("a", "b")], [("b", ["a"])]⟩ "c" "b" = .ok m' ∧
      get_main_account m' "a" = "c" :=
  C5_amended ⟨[("a", "b")], [("b", ["a"])]⟩ "a" "b" "c" ["a"]
    rfl rfl rfl rfl (by decide) (by decide) (by decide)

/-- C5 (counterexample to the literal claim): a reachable run in which
`addAlias(target b, alias a)` succeeds and a subsequent
`addAlias(target c, alias b)` also succeeds (as a silent no-op: the
requested target `c` resolves through the pre-existing alias `c → b` to
`b`, which equals the alias), yet `get_main_account a` stays `b ≠ c`.
The intermediate maps are built from the empty map by `add_alias`. -/
theorem C5_counterexample :
    add_alias ⟨[], []⟩ "b" "c" = .ok ⟨[("c", "b")], [("b", ["c"])]⟩ ∧
    add_alias ⟨[("c", "b")], [("b", ["c"])]⟩ "b" "a"
      = .ok ⟨[("c", "b"), ("a", "b")], [("b", ["c", "a"])]⟩ ∧
    add_alias ⟨[("c", "b"), ("a", "b")], [("b", ["c", "a"])]⟩ "c" "b"
      = .ok ⟨[("c", "b"), ("a", "b")], [("b", ["c", "a"])]⟩ ∧
    get_main_account ⟨[("c", "b"), ("a", "b")], [("b", ["c", "a"])]⟩ "a" = "b" ∧
    (("b" : String) == "c") = false :=
  ⟨rfl, rfl, rfl, rfl, by decide⟩

/-- C6 (amended): adding an alias equal to its own target is a silent
no-op, not a cycle error, whenever the chase from `A` terminates outside
the map — that is, when `A` is not an alias, or `A` is an alias of some
`T ≠ A` that is itself not an alias.  The cycle error of the claim fires
only when the forward map already contains a loop through `A`. -/
theorem C6_amended (m : AliasesMap) (A : String)
    (h : alook m.aliases A = none ∨
         ∃ T, alook m.aliases A = some T ∧ T ≠ A ∧ alook m.aliases T = none) :
    add_alias m A A = .ok m := by
  rcases h with h | ⟨T, hT, hTA, hTn⟩
  · have hch := chaseTarget_none m.aliases A A m.aliases.length h
    unfold add_alias
    rw [hch]
    simp only [Except.bind, pure, Except.pure, bind, Monad.toBind, Except.instMonad,
      if_pos rfl]
    rfl
  · have hpos : m.aliases ≠ [] := by
      intro h0
      rw [h0] at hT
      simp [alook] at hT
    have hlen : m.aliases.length + 1 = (m.aliases.length - 1) + 1 + 1 := by
      cases h0 : m.aliases
      · exact absurd h0 hpos
      · simp [h0]
    have hch : chaseTarget m.aliases A (m.aliases.length + 1) A = .ok T := by
      rw [hlen, chaseTarget_step _ _ _ _ _ hT hTA, chaseTarget_none _ _ _ _ hTn]
    unfold add_alias
    rw [hch]
    simp only [Except.bind, pure, Except.pure, bind, Monad.toBind, Except.instMonad,
      if_neg hTA, hT, if_pos rfl]
    rfl

/-- C6 (witness): the amended no-op theorem applied to the map `a → b`
(with `b` not an alias), adding `a → a`. -/
theorem C6_amended_witness :
    add_alias ⟨[("a", "b")], [("b", ["a"])]⟩ "a" "a" = .ok ⟨[("a", "b")], [("b", ["a"])]⟩ :=
  C6_amended ⟨[("a", "b")], [("b", ["a"])]⟩ "a" (Or.inr ⟨"b", rfl, by decide, rfl⟩)

/-- C6 (counterexample to the literal claim): on the empty alias map,
`addAlias(a, a)` returns successfully (the resolved target equals the
alias, so the call is a no-op) instead of failing with the cycle
error. -/
theorem C6_counterexample : add_alias ⟨[], []⟩ "a" "a" = .ok ⟨[], []⟩ := rfl

/-! ## `aolpsync/rules.py`: class-of-service rule checkers

A compiled rule is a tree of checker objects; `check` evaluates a tree
against an account.  The `xor` branch of `LogicalBinaryChecker` is
translated verbatim, including its list comprehension
`1 == len([ x for x in r if r ])` whose filter tests the truthiness of
the whole list `r` rather than of the element `x`. -/

inductive RuleTree where
  | const (word : String)
  | attrValue (word : String) (attrName : String) (value : String)
  | attrNone (attrName : String)
  | attrContains (attrName : String) (value : String)
  | lnot (r : RuleTree)
  | logical (word : String) (r1 r2 : RuleTree) (rest : List RuleTree)
deriving Repr

mutual

/-- `check( account )` of the checker classes of `RuleParser`. -/
def ruleCheck : RuleTree → Account → Bool
  | .const w, _ => w == "true"
  | .attrValue w an v, a =>
      match getAttr a an with
      | PyVal.scal (PyScalar.pStr s) => (w == "eq") == (s == v)
      | _ => false
  | .attrNone an, a =>
      pyIsNone (getAttr a an) || !pyTruthy (getAttr a an)
  | .attrContains an v, a =>
      let val := getAttr a an
      if pyIsNone val then false
      else match val with
        | PyVal.scal (PyScalar.pStr s) => s == v
        | _ => pyIn (vStr v) val
  | .lnot r, a => !(ruleCheck r a)
  | .logical w r1 r2 rest, a =>
      let checks := ruleCheck r1 a :: ruleCheck r2 a :: ruleChecks rest a
      if w == "and" then !(checks.contains false)
      else if w == "or" then checks.contains true
      else 1 == (checks.filter (fun _ => !checks.isEmpty)).length

/-- The sub-rule evaluation list `[ r.check( account ) for r in self.rules ]`. -/
def ruleChecks : List RuleTree → Account → List Bool
  | [], _ => []
  | r :: rs, a => ruleCheck r a :: ruleChecks rs a

end

theorem ruleChecks_length (l : List RuleTree) (a : Account) :
    (ruleChecks l a).length = l.length := by
  induction l with
  | nil => rfl
  | cons r rs ih => simp [ruleChecks, ih]

/-- C8: the `xor` rule checker never returns true — its list
comprehension filters on the truthiness of the whole result list, so on
the mandatory two-or-more sub-rules it computes `len(r) == 1`, which is
always false.  In particular `(xor true false)`, whose sub-rule results
contain exactly one `true`, evaluates to `false`, refuting the claimed
exactly-one semantics. -/
theorem C8_xor_code_bug :
    (∀ (a : Account) (r1 r2 : RuleTree) (rest : List RuleTree),
      ruleCheck (RuleTree.logical "xor" r1 r2 rest) a = false)
    ∧ (∀ a : Account,
        (ruleChecks [RuleTree.const "true", RuleTree.const "false"] a).count true = 1) := by
  constructor
  · intro a r1 r2 rest
    simp [ruleCheck, ruleChecks_length]
  · intro a
    simp [ruleChecks, ruleCheck]

/-- C7 (amended): the multivalued equivalence check satisfies the three
claimed laws with the first one restricted to non-`None` scalars:
`multivalued_check_equals(x, {x})` is true for every non-collection
`x ≠ None` (for `x = None` the one-element rule is skipped and the
empty-set rule does not apply, see the counterexample), the absent value
equals the empty collection, and distinct singletons differ. -/
theorem C7_amended :
    (∀ s : PyScalar, s ≠ PyScalar.pNone →
       multivalued_check_equals (PyVal.scal s) (PyVal.pSet [s]) = true)
    ∧ multivalued_check_equals vNone (PyVal.pSet []) = true
    ∧ (∀ a b : PyScalar, a ≠ b →
       multivalued_check_equals (PyVal.pSet [a]) (PyVal.pSet [b]) = false) := by
  refine ⟨?_, by decide, ?_⟩
  · intro s hs
    cases s with
    | pNone => exact absurd rfl hs
    | pStr x =>
        simp [multivalued_check_equals, pyEq, isCollection, pyIsNone, pyTruthy,
          collLen, pyIn]
    | pInt x =>
        simp [multivalued_check_equals, pyEq, isCollection, pyIsNone, pyTruthy,
          collLen, pyIn]
    | pBytes x =>
        simp [multivalued_check_equals, pyEq, isCollection, pyIsNone, pyTruthy,
          collLen, pyIn]
  · intro a b hab
    simp [multivalued_check_equals, pyEq, isCollection, List.contains, hab,
      Ne.symm hab]

/-- C7 (witness): the amended laws at concrete scalars. -/
theorem C7_amended_witness :
    multivalued_check_equals (PyVal.scal (PyScalar.pStr "x"))
        (PyVal.pSet [PyScalar.pStr "x"]) = true
    ∧ multivalued_check_equals (PyVal.pSet [PyScalar.pStr "x"])
        (PyVal.pSet [PyScalar.pStr "y"]) = false :=
  ⟨C7_amended.1 (PyScalar.pStr "x") (by decide),
   C7_amended.2.2 (PyScalar.pStr "x") (PyScalar.pStr "y") (by decide)⟩

/-- C7 (counterexample to the literal claim): `None` is a non-collection
value, yet `multivalued_check_equals(None, {None})` is false — after the
swap, the `b is None` rule requires the collection to be empty, and the
one-element rule requires `b is not None`. -/
theorem C7_counterexample :
    multivalued_check_equals vNone (PyVal.pSet [PyScalar.pNone]) = false := by
  decide

/-- The key list of a JSON object value (empty for non-objects). -/
def jsonObjKeys : Json → List String
  | Json.obj kvs => keysOf kvs
  | _ => []

/-- C10 (amended): the persistent-format round trip restores every
storage field exactly for every account none of whose attributes is an
empty collection, and byte blobs and sets are carried through the
tagged wrapper object — whose tag key is `__ext__`, not `ext` as
claimed (see the counterexample). -/
theorem C10_amended (a : Account) (h : noEmptyColls a = true) :
    from_json_record (to_json_record a) = Except.ok a
    ∧ (∀ bs : List Nat, dumpVal (vBytes bs)
        = Json.obj [("__ext__", Json.str "bytes"),
                    ("data", Json.arr (bs.map fun n => Json.num (Int.ofNat n)))])
    ∧ (∀ xs : List PyScalar, dumpVal (PyVal.pSet xs)
        = Json.obj [("__ext__", Json.str "set"),
                    ("data", Json.arr (xs.map dumpScalar))]) :=
  ⟨from_to_json_record a h, fun _ => rfl, fun _ => rfl⟩

/-- C10 (witness): the amended round trip on a concrete account with a
byte-blob password hash and non-empty set attributes. -/
theorem C10_amended_witness :
    noEmptyColls (Account.mk (vStr "u") "e" (vStr "s") (vStr "g")
      (vStr "d") (vStr "m") (vBytes [1, 2]) (PyVal.pSet [PyScalar.pStr "grp"])
      (vStr "lm") vNone (PyVal.pSet [PyScalar.pStr "al"]) (vStr "c")) = true
    ∧ from_json_record (to_json_record (Account.mk (vStr "u") "e" (vStr "s") (vStr "g")
        (vStr "d") (vStr "m") (vBytes [1, 2]) (PyVal.pSet [PyScalar.pStr "grp"])
        (vStr "lm") vNone (PyVal.pSet [PyScalar.pStr "al"]) (vStr "c")))
      = Except.ok (Account.mk (vStr "u") "e" (vStr "s") (vStr "g")
        (vStr "d") (vStr "m") (vBytes [1, 2]) (PyVal.pSet [PyScalar.pStr "grp"])
        (vStr "lm") vNone (PyVal.pSet [PyScalar.pStr "al"]) (vStr "c")) :=
  ⟨rfl,
   (C10_amended (Account.mk (vStr "u") "e" (vStr "s") (vStr "g")
      (vStr "d") (vStr "m") (vBytes [1, 2]) (PyVal.pSet [PyScalar.pStr "grp"])
      (vStr "lm") vNone (PyVal.pSet [PyScalar.pStr "al"]) (vStr "c")) rfl).1⟩

/-- C10 (counterexample to the literal claim): the wrapper object's tag
key is `__ext__`, not `ext` — an object tagged with key `ext` does not
decode — and an account with an empty-set attribute (here `groups`)
does not round-trip exactly: the empty collection is dropped on encode
and restored as `None`. -/
theorem C10_counterexample :
    jsonObjKeys (dumpVal (vBytes [1])) = ["__ext__", "data"]
    ∧ (jsonObjKeys (dumpVal (vBytes [1]))).contains "ext" = false
    ∧ loadVal (Json.obj [("ext", Json.str "bytes"), ("data", Json.arr [Json.num 1])])
        = Except.error ()
    ∧ from_json_record (to_json_record (Account.mk (vStr "u") "e" (vStr "s") (vStr "g")
        (vStr "d") (vStr "m") (vStr "p") (PyVal.pSet []) (vStr "lm") vNone
        (vStr "a") (vStr "c")))
      = Except.ok (Account.mk (vStr "u") "e" (vStr "s") (vStr "g")
        (vStr "d") (vStr "m") (vStr "p") vNone (vStr "lm") vNone
        (vStr "a") (vStr "c"))
    ∧ decide ((vNone : PyVal) = PyVal.pSet []) = false :=
  ⟨rfl, by decide, rfl, rfl, by decide⟩

theorem finalCode_of_filter (st : ConsState) (e : String) (c : Nat)
    (h : st.results.filter (fun p => p.1 = e) = [(e, c)]) :
    finalCode st e = some c := by
  unfold finalCode
  rw [← List.filter_head?, List.filter_reverse, h]
  rfl

theorem finalCode_result_self (st : ConsState) (e : String) (c : Nat) :
    finalCode (result e c st) e = some c := by
  simp [finalCode, result, List.find?]

/-- A concrete well-formed account used as a test fixture, keyed `e`. -/
def accFix : Account :=
  ⟨vStr "u", "e", vStr "s", vStr "g", vStr "d", vStr "m", vStr "p", vNone,
   vStr "lm", vNone, vNone, vStr "c"⟩

/-- C1: classifier totality.  (1) Every identifier in the union of the
three snapshots' key sets ends a `process` run with exactly one
classification; (2) identifiers outside the union are never classified;
(3) a check subroutine that raises yields the internal-error state 98
for its identifier; (4) a check subroutine that returns without
recording a result yields the no-result state 99. -/
theorem C1_classifier_totality :
    (∀ (ldap dbm bssm : List (String × Account))
       (store : List (String × List (String × Json))) (x : String),
       (x ∈ keysOf ldap ∨ x ∈ keysOf dbm ∨ x ∈ keysOf bssm) →
       logCount (consProcess (initConsState ldap dbm bssm store)) x = 1)
    ∧ (∀ (ldap dbm bssm : List (String × Account))
         (store : List (String × List (String × Json))) (x : String),
         ¬(x ∈ keysOf ldap ∨ x ∈ keysOf dbm ∨ x ∈ keysOf bssm) →
         logCount (consProcess (initConsState ldap dbm bssm store)) x = 0)
    ∧ (∀ (f : CheckFun) (e : String) (st s' : ConsState),
         f e (alook st.ldapAccounts e) (alook st.dbAccounts e)
             (alook st.bssAccounts e) st = (s', true) →
         finalCode (runAccountCheck f e st) e = some 98)
    ∧ (∀ (f : CheckFun) (e : String) (st s' : ConsState),
         f e (alook st.ldapAccounts e) (alook st.dbAccounts e)
             (alook st.bssAccounts e) st = (s', false) →
         e ∉ s'.checked →
         finalCode (runAccountCheck f e st) e = some 99) := by
  refine ⟨?_, ?_, ?_, ?_⟩
  · intro ldap dbm bssm store x hx
    obtain ⟨h1, _, _⟩ := consProcess_results ldap dbm bssm store
    unfold logCount
    rw [h1 x, if_pos hx]
    rfl
  · intro ldap dbm bssm store x hx
    obtain ⟨h1, _, _⟩ := consProcess_results ldap dbm bssm store
    unfold logCount
    rw [h1 x, if_neg hx]
    rfl
  · intro f e st s' hf
    rw [runAccountCheck_raise f e st s' hf]
    exact finalCode_result_self s' e 98
  · intro f e st s' hf hm
    have h : runAccountCheck f e st = result e 99 s' := by
      simp [runAccountCheck, hf, hm]
    rw [h]
    exact finalCode_result_self s' e 99

/-- C1 (witness): totality at a one-identifier directory snapshot, and
the 98/99 paths at constant check subroutines. -/
theorem C1_classifier_totality_witness :
    ("e" ∈ keysOf [("e", accFix)] ∨ "e" ∈ keysOf ([] : List (String × Account))
      ∨ "e" ∈ keysOf ([] : List (String × Account)))
    ∧ logCount (consProcess (initConsState [("e", accFix)] [] [] [])) "e" = 1
    ∧ finalCode (runAccountCheck (fun _ _ _ _ st => (st, true)) "e"
        (initConsState [] [] [] [])) "e" = some 98
    ∧ finalCode (runAccountCheck (fun _ _ _ _ st => (st, false)) "e"
        (initConsState [] [] [] [])) "e" = some 99 :=
  ⟨Or.inl (by decide),
   C1_classifier_totality.1 [("e", accFix)] [] [] [] "e" (Or.inl (by decide)),
   C1_classifier_totality.2.2.1 (fun _ _ _ _ st => (st, true)) "e"
     (initConsState [] [] [] []) (initConsState [] [] [] []) rfl,
   C1_classifier_totality.2.2.2 (fun _ _ _ _ st => (st, false)) "e"
     (initConsState [] [] [] []) (initConsState [] [] [] []) rfl (by decide)⟩

/-- C2 (amended): an identifier present identically in the directory
and the cache but absent remotely is classified 20 (needs remote
creation), exactly once — but, contrary to the claim, the run also
mutates the local cache for that identifier: `check_nobss_accounts_`
unconditionally removes the cached record (a `pop` keyed by the
identifier is performed). -/
theorem C2_amended (ldap dbm bssm : List (String × Account))
    (store : List (String × List (String × Json))) (e : String) (la dba : Account)
    (hl : alook ldap e = some la) (hd : alook dbm e = some dba)
    (hb : alook bssm e = none)
    (heq : accountEqOpt la (some dba) = true) (hwl : WFmap ldap) :
    finalCode (consProcess (initConsState ldap dbm bssm store)) e = some 20
    ∧ logCount (consProcess (initConsState ldap dbm bssm store)) e = 1
    ∧ DbOp.pop e ∈ (consProcess (initConsState ldap dbm bssm store)).dbops := by
  obtain ⟨h1, h2, _⟩ := consProcess_results ldap dbm bssm store
  have hin : e ∈ keysOf ldap := (alook_mem_keys ldap e).mp (by rw [hl]; rfl)
  have hfil := h1 e
  rw [if_pos (Or.inl hin)] at hfil
  have hpc : patternCode ldap dbm bssm e = 20 := by
    simp [patternCode, hl, hd, hb, nobssCode, heq]
  rw [hpc] at hfil
  refine ⟨finalCode_of_filter _ e 20 hfil, ?_, ?_⟩
  · unfold logCount
    rw [hfil]
    rfl
  · refine h2 e (Or.inl hin) (DbOp.pop e) ?_
    have hkey : la.eppn = e := WFmap_alook hwl hl
    simp [patternOps, hl, hd, hb, nobssOps, hkey]

/-- C2 (witness): the amended behaviour at a one-identifier pair of
identical directory and cache snapshots. -/
theorem C2_amended_witness :
    accountEqOpt accFix (some accFix) = true
    ∧ finalCode (consProcess (initConsState [("e", accFix)] [("e", accFix)] [] []))
        "e" = some 20
    ∧ DbOp.pop "e"
        ∈ (consProcess (initConsState [("e", accFix)] [("e", accFix)] [] [])).dbops :=
  ⟨by decide,
   (C2_amended [("e", accFix)] [("e", accFix)] [] [] "e" accFix accFix
      rfl rfl rfl (by decide) (by intro p hp; rw [List.mem_singleton.mp hp]; rfl)).1,
   (C2_amended [("e", accFix)] [("e", accFix)] [] [] "e" accFix accFix
      rfl rfl rfl (by decide) (by intro p hp; rw [List.mem_singleton.mp hp]; rfl)).2.2⟩

/-- C2 (counterexample to the literal claim): with the identifier `e`
present identically in directory and cache and absent remotely, the run
reports state 20 as claimed but also performs a local-cache deletion
keyed `e` — the "no mutation of the local cache" part of the claim is
false. -/
theorem C2_counterexample :
    finalCode (consProcess (initConsState [("e", accFix)] [("e", accFix)] [] []))
      "e" = some 20
    ∧ DbOp.pop "e"
        ∈ (consProcess (initConsState [("e", accFix)] [("e", accFix)] [] [])).dbops := by
  constructor
  · rfl
  · decide

/-- The cached account of the C9 trace: marked for deletion at 100. -/
def dbaFix : Account :=
  ⟨vStr "u", "e", vStr "s", vStr "g", vStr "d", vStr "m", vStr "p", vNone,
   vStr "lm", vInt 100, vNone, vStr "c"⟩

/-- The remote account of the C9 trace: marked for deletion at 200, so
its deletion marker never matches the cached one. -/
def bsaFix : Account :=
  ⟨vStr "u", "e", vStr "s", vStr "g", vStr "d", vStr "m", vStr "p", vNone,
   vStr "lm", vInt 200, vNone, vStr "c"⟩

/-- The first `process` run of the C9 trace: empty directory, cache
holding `dbaFix`, remote holding `bsaFix`. -/
def runC9a : ConsState :=
  consProcess (initConsState [] [("e", dbaFix)] [("e", bsaFix)] [])

/-- The second `process` run of the C9 trace: the cache reloaded from
the store left by the first run, directory and remote unchanged. -/
def runC9b : ConsState :=
  consProcess (initConsState [] (loadDb runC9a.store) [("e", bsaFix)] runC9a.store)

/-- C9 (amended): once a corrective deletion has been applied — the
identifier is gone from the local cache — a re-run on unchanged
directory and remote snapshots performs no store operation keyed by
that identifier, provided it is also absent remotely.  (The
unconditional idempotence of the claim is false: see the case-24
counterexample.) -/
theorem C9_amended (ldap db2 bssm : List (String × Account))
    (store2 : List (String × List (String × Json))) (e : String)
    (hwl : WFmap ldap) (hwd : WFmap db2) (hwb : WFmap bssm)
    (hd : alook db2 e = none) (hb : alook bssm e = none) :
    (consProcess (initConsState ldap db2 bssm store2)).dbops.filter
      (fun op => op.key == e) = [] := by
  obtain ⟨_, _, h3⟩ := consProcess_results ldap db2 bssm store2
  rw [List.filter_eq_nil_iff]
  intro op hop hkey
  obtain ⟨x, hx, hxkey, hxop⟩ := h3 hwl hwd hwb op hop
  have hxe : x = e := by
    rw [← hxkey]
    exact beq_iff_eq.mp hkey
  rw [hxe] at hx hxop
  have hdk : e ∉ keysOf db2 := (alook_eq_none_iff db2 e).mp hd
  have hbk : e ∉ keysOf bssm := (alook_eq_none_iff bssm e).mp hb
  by_cases hlk : e ∈ keysOf ldap
  · have hls : (alook ldap e).isSome = true := (alook_mem_keys ldap e).mpr hlk
    simp [patternOps, hls, hd, hb, noOps] at hxop
  · rcases hx with h | h | h
    · exact hlk h
    · exact hdk h
    · exact hbk h

/-- C9 (witness): the amended no-refire property on a snapshot triple
whose identifier is present only in the directory. -/
theorem C9_amended_witness :
    alook ([] : List (String × Account)) "e" = none
    ∧ (consProcess (initConsState [("e", accFix)] [] [] [])).dbops.filter
        (fun op => op.key == "e") = [] :=
  ⟨rfl,
   C9_amended [("e", accFix)] [] [] [] "e"
     (by intro p hp; rw [List.mem_singleton.mp hp]; rfl)
     (by intro p hp; exact absurd hp (List.not_mem_nil p))
     (by intro p hp; exact absurd hp (List.not_mem_nil p))
     rfl rfl⟩

/-- C9 (counterexample to the literal claim): classifier case 24
(cache and remote both hold the identifier, both records carry a
deletion marker, but the records disagree) re-fires on a second run
over unchanged directory and remote snapshots.  The corrective save of
the first run copies the remote details into the cached record but not
its deletion marker, so the records still disagree after the cache is
reloaded from the store, and the same corrective store write keyed `e`
is performed again. -/
theorem C9_counterexample :
    finalCode runC9a "e" = some 24
    ∧ DbOp.put "e" ∈ runC9a.dbops
    ∧ finalCode runC9b "e" = some 24
    ∧ DbOp.put "e" ∈ runC9b.dbops := by
  refine ⟨rfl, by decide, rfl, by decide⟩

/-! ## `synchronize.py`: the forward-sync `Processor`

State of a processor run restricted to one account: the directory
record `la`, the cached record `dba` (mutated in place by the checks),
the LMDB store, and the remote service modelled by a script of planned
`BSSAction` results together with the trace of calls made.  Each
`BSSAction(name, ...)` consumes the next script entry (`false` when the
script is exhausted) and appends `(name, result)` to the trace. -/

structure SyncSt where
  la : Account
  dba : Account
  store : List (String × List (String × Json))
  script : List Bool
  calls : List (String × Bool)

/-- A remote `BSSAction` call. -/
def bssCall (name : String) (st : SyncSt) : Bool × SyncSt :=
  match st.script with
  | [] => (false, { st with calls := st.calls ++ [(name, false)] })
  | b :: rest => (b, { st with script := rest, calls := st.calls ++ [(name, b)] })

/-- `Processor.save_account` (without the simulate flag):
`clear_empty_sets` mutates the account, then the record is written to
the store under the account's `eppn`. -/
def sync_save (st : SyncSt) : SyncSt :=
  let a := clear_empty_sets st.dba
  { st with dba := a, store := aset st.store a.eppn (to_json_record a) }

/-- The string of a string-valued attribute (used for the deletion
address built from the account's mail). -/
def pyStrOf : PyVal → String
  | PyVal.scal (PyScalar.pStr s) => s
  | _ => ""

/-- The element list of a `set` value (`set( v )` on a set). -/
def pSetElems : PyVal → List PyScalar
  | PyVal.pSet xs => xs
  | _ => []

/-- Python `set.remove` on a set-valued attribute. -/
def psetRemove (v : PyVal) (x : PyScalar) : PyVal :=
  match v with
  | PyVal.pSet xs => PyVal.pSet (xs.erase x)
  | v => v

/-- Python `set.add` on a set-valued attribute. -/
def psetAdd (v : PyVal) (x : PyScalar) : PyVal :=
  match v with
  | PyVal.pSet xs => PyVal.pSet (if x ∈ xs then xs else xs ++ [x])
  | v => v

/-- Membership of a scalar in a collection value. -/
def pyInScal (x : PyScalar) (v : PyVal) : Bool := pyIn (PyVal.scal x) v

/-- Python set difference `a - b` on set values. -/
def setDiffP (a b : PyVal) : List PyScalar :=
  (pSetElems a).filter (fun x => !(pyInScal x b))

/-- `Processor.add_aliases` (callers never pass `None` for the alias
list): normalize a `None` alias set to an empty one, then for each new
alias call `addAccountAlias` and, on success, add it to the account and
save. -/
def add_aliases (st : SyncSt) (aliases : List PyScalar) : SyncSt :=
  let st0 := if pyIsNone st.dba.aliases
             then { st with dba := { st.dba with aliases := PyVal.pSet [] } } else st
  aliases.foldl (fun s al =>
    if pyInScal al s.dba.aliases then s
    else
      let p := bssCall "addAccountAlias" s
      if p.1 then
        sync_save { p.2 with dba := { p.2.dba with aliases := psetAdd p.2.dba.aliases al } }
      else p.2) st0

/-- `Processor.remove_aliases` (callers never pass `None` for the alias
list): for each alias present on the account, call
`removeAccountAlias` and, on success, remove it from the account and
save — the store is synchronized after every successful removal. -/
def remove_aliases (st : SyncSt) (aliases : List PyScalar) : SyncSt :=
  if pyIsNone st.dba.aliases then st
  else aliases.foldl (fun s al =>
    if !(pyInScal al s.dba.aliases) then s
    else
      let p := bssCall "removeAccountAlias" s
      if p.1 then
        sync_save { p.2 with dba := { p.2.dba with aliases := psetRemove p.2.dba.aliases al } }
      else p.2) st

/-- `Processor.check_undelete`: reactivate a soft-deleted account via
the API and clear the deletion marker in memory only — the method never
writes the store (its own docstring: the account is not really
reactivated until it has been renamed). -/
def check_undelete (st : SyncSt) : Bool × SyncSt :=
  if pyIsNone st.dba.markedForDeletion then (true, st)
  else
    let p := bssCall "activateAccount" st
    if p.1 then (true, { p.2 with dba := { p.2.dba with markedForDeletion := vNone } })
    else (false, p.2)

/-- `Processor.check_rename`: rename via the API, then update the
cached mail and save. -/
def check_rename (st : SyncSt) : Bool × SyncSt :=
  if pyEq st.dba.mail st.la.mail then (true, st)
  else
    let p := bssCall "renameAccount" st
    if p.1 then (true, sync_save { p.2 with dba := { p.2.dba with mail := st.la.mail } })
    else (false, p.2)

/-- `Processor.check_password_change`. -/
def check_password_change (st : SyncSt) : Bool × SyncSt :=
  if pyEq st.dba.passwordHash st.la.passwordHash then (true, st)
  else
    let p := bssCall "modifyPassword" st
    if p.1 then
      (true, sync_save { p.2 with dba := { p.2.dba with passwordHash := st.la.passwordHash } })
    else (false, p.2)

/-- `Processor.check_details`: `la.to_bss_account` raises when the
directory record carries a truthy deletion marker (evaluated while
building the call's arguments, before the call itself). -/
def check_details (st : SyncSt) : Except Unit (Bool × SyncSt) :=
  if !(details_differ st.dba st.la) then Except.ok (true, st)
  else if pyTruthy st.la.markedForDeletion then Except.error ()
  else
    let p := bssCall "modifyAccount" st
    if p.1 then Except.ok (true, sync_save { p.2 with dba := copy_details_from p.2.dba st.la })
    else Except.ok (false, p.2)

/-- `Processor.check_alias_changes`. -/
def check_alias_changes (st : SyncSt) : Bool × SyncSt :=
  let st1 := if pyIsNone st.la.aliases
             then { st with la := { st.la with aliases := PyVal.pSet [] } } else st
  let st2 := if pyIsNone st1.dba.aliases
             then { st1 with dba := { st1.dba with aliases := PyVal.pSet [] } } else st1
  if pyEq st2.dba.aliases st2.la.aliases then (true, st2)
  else
    let n := setDiffP st2.la.aliases st2.dba.aliases
    let o := setDiffP st2.dba.aliases st2.la.aliases
    if n.isEmpty && o.isEmpty then (false, st2)
    else
      let st3 := add_aliases st2 n
      (true, remove_aliases st3 o)

/-- The per-identifier update pipeline of `Processor.process_accounts`:
run `check_undelete`, `check_rename`, `check_password_change`,
`check_details`, `check_alias_changes` in that order, stopping at the
first check that reports failure. -/
def updateAccount (st : SyncSt) : Except Unit SyncSt :=
  let p1 := check_undelete st
  if !p1.1 then Except.ok p1.2 else
  let p2 := check_rename p1.2
  if !p2.1 then Except.ok p2.2 else
  let p3 := check_password_change p2.2
  if !p3.1 then Except.ok p3.2 else
  match check_details p3.2 with
  | Except.error e => Except.error e
  | Except.ok p4 =>
      if !p4.1 then Except.ok p4.2 else
      Except.ok (check_alias_changes p4.2).2

/-- `Processor.pre_delete`: remove all aliases (synchronizing the store
after each removal), close the account, set the deletion marker in
memory, rename the account to the timestamped deletion address, and
only then update the cached mail and save.  The `assert` on an
unmarked account is modelled as an error. -/
def pre_delete (st : SyncSt) (now : Int) : Except Unit SyncSt :=
  if !(pyIsNone st.dba.markedForDeletion) then Except.error ()
  else
    let st1 := if pyTruthy st.dba.aliases
               then remove_aliases st (pSetElems st.dba.aliases) else st
    let p2 := bssCall "closeAccount" st1
    if !p2.1 then Except.ok p2.2
    else
      let dba3 := { p2.2.dba with markedForDeletion := vInt now }
      let delAddr := "del-" ++ toString now ++ "-" ++ pyStrOf dba3.mail
      let st3 := { p2.2 with dba := dba3 }
      let p4 := bssCall "renameAccount" st3
      if !p4.1 then Except.ok p4.2
      else Except.ok (sync_save { p4.2 with dba := { p4.2.dba with mail := vStr delAddr } })

/-- C3 (amended): atomicity of the close/rename/save tail of
`pre_delete`.  For an account with no aliases (so the alias-removal
phase performs no store write), if `closeAccount` or `renameAccount`
fails, the store is left untouched; when both succeed, the record is
saved with the deletion marker and the timestamped deletion address.
The literal claim fails because the alias-removal phase persists the
record after every successful alias removal, before `closeAccount`
runs (see the counterexample). -/
theorem C3_amended (st : SyncSt) (now : Int) (b1 b2 : Bool) (rest : List Bool)
    (hm : pyIsNone st.dba.markedForDeletion = true)
    (hal : pyTruthy st.dba.aliases = false)
    (hs : st.script = b1 :: b2 :: rest) :
    ((b1 = false ∨ b2 = false) →
       ∃ st', pre_delete st now = Except.ok st' ∧ st'.store = st.store)
    ∧ (b1 = true → b2 = true →
       ∃ st', pre_delete st now = Except.ok st' ∧
         st'.store = aset st.store
           (clear_empty_sets
             { st.dba with
               markedForDeletion := vInt now,
               mail := vStr ("del-" ++ toString now ++ "-" ++ pyStrOf st.dba.mail) }).eppn
           (to_json_record (clear_empty_sets
             { st.dba with
               markedForDeletion := vInt now,
               mail := vStr ("del-" ++ toString now ++ "-" ++ pyStrOf st.dba.mail) }))) := by
  obtain ⟨la, dba, store, script, calls⟩ := st
  simp only at hm hal hs
  subst hs
  constructor
  · rintro (hb | hb)
    · subst hb
      simp only [pre_delete, hm, hal, bssCall, Bool.not_true, Bool.not_false,
        if_true, if_false, Bool.false_eq_true, ite_false, ite_true]
      exact ⟨_, rfl, rfl⟩
    · subst hb
      cases b1 with
      | false =>
          simp only [pre_delete, hm, hal, bssCall, Bool.not_true, Bool.not_false,
            if_true, if_false, Bool.false_eq_true, ite_false, ite_true]
          exact ⟨_, rfl, rfl⟩
      | true =>
          simp only [pre_delete, hm, hal, bssCall, Bool.not_true, Bool.not_false,
            if_true, if_false, Bool.false_eq_true, ite_false, ite_true]
          exact ⟨_, rfl, rfl⟩
  · intro hb1 hb2
    subst hb1
    subst hb2
    simp only [pre_delete, hm, hal, bssCall, Bool.not_true, Bool.not_false,
      if_true, if_false, Bool.false_eq_true, ite_false, ite_true]
    exact ⟨_, rfl, rfl⟩

/-- The cached account of the C3 trace: unmarked, with one alias. -/
def dbaC3 : Account := { accFix with aliases := PyVal.pSet [PyScalar.pStr "x"] }

/-- C3 (counterexample to the literal claim): with one alias on the
account and a run in which `removeAccountAlias` succeeds but
`closeAccount` then fails, `pre_delete` returns normally with the store
already written (one record saved by the alias-removal phase) although
the final rename was never even attempted — a partial failure does not
leave the local store untouched. -/
theorem C3_counterexample :
    (pre_delete ⟨accFix, dbaC3, [], [true, false], []⟩ 5).map
        (fun s => (s.store.length, s.calls))
      = Except.ok (1, [("removeAccountAlias", true), ("closeAccount", false)]) := rfl

/-- C3 (witness): the amended atomicity on an alias-free account whose
`closeAccount` call succeeds but whose `renameAccount` call fails — the
store stays empty. -/
theorem C3_amended_witness :
    (pre_delete ⟨accFix, accFix, [], [true, false], []⟩ 5).map (fun s => s.store.length)
      = Except.ok 0 := by
  obtain ⟨st', h1, h2⟩ :=
    (C3_amended ⟨accFix, accFix, [], [true, false], []⟩ 5 true false [] rfl rfl rfl).1
      (Or.inr rfl)
  rw [h1]
  simp [Except.map, h2]

/-- C4 (amended): `check_undelete` never writes the local store — it
clears the deletion marker in memory only — and in the update pipeline
the cleared marker first reaches the store through the save performed
by the following `check_rename` step, whose written record carries the
cleared marker together with the new mail address. -/
theorem C4_amended :
    (∀ st : SyncSt, ((check_undelete st).2).store = st.store)
    ∧ (∀ (st : SyncSt) (rest : List Bool),
        pyIsNone st.dba.markedForDeletion = false →
        st.script = true :: true :: rest →
        pyEq st.dba.mail st.la.mail = false →
        (check_undelete st).1 = true
        ∧ ((check_undelete st).2).dba.markedForDeletion = vNone
        ∧ (check_rename (check_undelete st).2).1 = true
        ∧ (check_rename (check_undelete st).2).2.store
            = aset st.store
                (clear_empty_sets
                  { st.dba with markedForDeletion := vNone, mail := st.la.mail }).eppn
                (to_json_record (clear_empty_sets
                  { st.dba with markedForDeletion := vNone, mail := st.la.mail }))) := by
  constructor
  · intro st
    unfold check_undelete
    by_cases h : pyIsNone st.dba.markedForDeletion = true
    · rw [if_pos h]
    · rw [if_neg h]
      unfold bssCall
      match hs : st.script with
      | [] => simp
      | b :: rest => cases b <;> simp
  · intro st rest hmk hs hmail
    obtain ⟨la, dba, store, script, calls⟩ := st
    simp only at hmk hs hmail
    subst hs
    simp only [check_undelete, check_rename, bssCall, hmk, hmail, Bool.false_eq_true,
      if_false, ite_false, ite_true, if_true]
    exact ⟨trivial, trivial, trivial, rfl⟩

/-- The directory record of the C4 trace: same account, new address. -/
def laC4 : Account := { accFix with mail := vStr "new" }

/-- The cached record of the C4 trace: old address, marked for
deletion. -/
def dbaC4 : Account := { accFix with mail := vStr "old", markedForDeletion := vInt 100 }

/-- C4 (witness): the amended behaviour on a marked cached account
whose `activateAccount` and `renameAccount` calls both succeed. -/
theorem C4_amended_witness :
    ((check_undelete ⟨laC4, dbaC4, [], [true, true], []⟩).2).store
        = ([] : List (String × List (String × Json)))
    ∧ (check_undelete ⟨laC4, dbaC4, [], [true, true], []⟩).1 = true
    ∧ (check_rename (check_undelete ⟨laC4, dbaC4, [], [true, true], []⟩).2).1 = true :=
  ⟨C4_amended.1 ⟨laC4, dbaC4, [], [true, true], []⟩,
   (C4_amended.2 ⟨laC4, dbaC4, [], [true, true], []⟩ [] rfl rfl rfl).1,
   (C4_amended.2 ⟨laC4, dbaC4, [], [true, true], []⟩ [] rfl rfl rfl).2.2.1⟩

/-- C4 (counterexample to the literal claim): on a marked account whose
`activateAccount` call succeeds, `check_undelete` reports success and
clears the deletion marker in memory, but writes nothing to the local
store — the cleared marker is not persisted before the rename step
runs, contrary to the claimed crash-safe incremental commit. -/
theorem C4_counterexample :
    (check_undelete ⟨laC4, dbaC4, [], [true], []⟩).1 = true
    ∧ ((check_undelete ⟨laC4, dbaC4, [], [true], []⟩).2).dba.markedForDeletion = vNone
    ∧ ((check_undelete ⟨laC4, dbaC4, [], [true], []⟩).2).store.isEmpty = true
    ∧ ((check_undelete ⟨laC4, dbaC4, [], [true], []⟩).2).calls
        = [("activateAccount", true)] := by
  refine ⟨rfl, rfl, rfl, rfl⟩
